import Mathlib

/-! Verification development for `sql_dialect.go` (package `dsc`).

A shallow embedding of the SQL dialect layer: the name normalizer, the generic
SQL dialect, the engine variants and the manager they delegate to.

Go strings are embedded as Lean `String`s.  The only string operations the
source uses are concatenation, comparison with `""`, search for the one-byte
separators `/` and `\`, and slicing at the position of a `/`; on well-formed
UTF-8 text these agree byte-wise and character-wise.
-/

namespace Dsc

/-! ## Go standard library functions used by `normalizeName` -/

/-- Go `strings.Contains(s, substr)`: `substr` occurs somewhere within `s`. -/
def stringsContains (s substr : String) : Bool :=
  s.data.tails.any (fun t => substr.data.isPrefixOf t)

/-- The loop of Go `strings.LastIndexByte`: scan the positions `n-1, n-2, ..., 0`
and return the first one holding `c`, or `-1` when there is none. -/
def lastIndexByteFrom (s : List Char) (c : Char) : Nat → Int
  | 0 => -1
  | n + 1 => if s[n]? = some c then (n : Int) else lastIndexByteFrom s c n

/-- Go `strings.LastIndexByte(s, c)`. -/
def lastIndexByte (s : String) (c : Char) : Int :=
  lastIndexByteFrom s.data c s.data.length

/-- Go `path.Split(path)`: `i := LastIndexByte(path, '/')`, then
`(path[:i+1], path[i+1:])`. -/
def pathSplit (path : String) : String × String :=
  let i := lastIndexByte path '/'
  (⟨path.data.take (i + 1).toNat⟩, ⟨path.data.drop (i + 1).toNat⟩)

/-! ## `normalizeName` (sql_dialect.go, lines 101-107) -/

/-- Source `normalizeName`. -/
def normalizeName (name : String) : String :=
  if !stringsContains name "/" && !stringsContains name "\\" then
    name
  else
    (pathSplit name).2

/-! ## Further library functions: `strings.Join`, `fmt.Sprintf`, `toolbox.AsString` -/

/-- Go `strings.Join(elems, sep)`: no element gives `""`, one element gives that
element, otherwise the first element followed by `sep` and the next element,
for every further element. -/
def stringsJoin : List String → String → String
  | [], _ => ""
  | [a], _ => a
  | a :: rest, sep => rest.foldl (fun b s => b ++ sep ++ s) a

/-- The text Go's `fmt` prints for operands that no verb consumed. -/
def sprintfExtra (args : List String) : String :=
  "%!(EXTRA " ++ stringsJoin (args.map (fun a => "string=" ++ a)) ", " ++ ")"

/-- Go `fmt.Sprintf` on string operands, by scanning the format: `%%` prints a
percent sign, `%v` and `%s` print the next operand (`%!v(MISSING)` when there is
none left), any other verb character `c` prints `%!c(string=operand)`, a format
ending in `%` prints `%!(NOVERB)`, and operands left over at the end are printed
as `%!(EXTRA string=..., ...)`.  Flags, widths, precisions and argument indexes
are not part of this model; none of the templates of this package has one. -/
def sprintfChars : List Char → List String → List Char
  | [], [] => []
  | [], a :: args => (sprintfExtra (a :: args)).data
  | c :: [], args =>
    if c = '%' then "%!(NOVERB)".data ++ sprintfChars [] args
    else c :: sprintfChars [] args
  | c :: v :: rest, args =>
    if c = '%' then
      if v = '%' then '%' :: sprintfChars rest args
      else
        match args with
        | [] => ("%!" ++ String.singleton v ++ "(MISSING)").data ++ sprintfChars rest []
        | a :: args' =>
          if v = 'v' ∨ v = 's' then a.data ++ sprintfChars rest args'
          else ("%!" ++ String.singleton v ++ "(string=" ++ a ++ ")").data
                 ++ sprintfChars rest args'
    else c :: sprintfChars (v :: rest) args

/-- Go `fmt.Sprintf(format, args...)` for string operands. -/
def Sprintf (format : String) (args : List String) : String :=
  ⟨sprintfChars format.data args⟩

/-- A loosely typed Go value (`interface{}`) as a manager hands it back. -/
inductive Value where
  | str (s : String)
  | int (n : Int)
  | bool (b : Bool)
  | null
  deriving DecidableEq, Repr

/-- Modelled from the spec: `toolbox.AsString` belongs to the external
`github.com/viant/toolbox` library.  A value that is a string is surfaced as
that string (the spec's "name" of a column); how any other value is rendered is
left to the parameter `render`. -/
def AsString (render : Value → String) : Value → String
  | Value.str s => s
  | v => render v

/-! ## The manager (external collaborator) and the record of its calls -/

/-- A non-nil Go `error`.  The Go type `error` is `Option GoError`, `nil` being
`none`. -/
structure GoError where
  msg : String
  deriving DecidableEq, Repr

/-- Source `nameRecord`: the row shape with one column tagged `name`. -/
structure nameRecord where
  Name : String
  deriving DecidableEq, Repr

/-- The `Manager` interface as this file uses it, over a manager state `σ`.
`ReadAll` and `ReadSingle` are given once per destination container type the
source passes (always a fresh empty slice, so only the filled slice is
returned).  `Execute` yields only its error: every caller discards the
`sql.Result`.  The mapper argument is `nil` at every call and is left out; a
`nil` parameter slice is the empty list. -/
structure Manager (σ : Type) where
  /-- Method `Execute(sql)` -/
  Execute : String → σ → Option GoError × σ
  /-- Method `ReadAll` into a `[]nameRecord` -/
  ReadAllRecords : String → List Value → σ → (List nameRecord × Option GoError) × σ
  /-- Method `ReadAll` into a `[]map[string]interface{}` -/
  ReadAllMaps : String → List Value → σ → (List (List (String × Value)) × Option GoError) × σ
  /-- Method `ReadAll` into a `[][]interface{}` -/
  ReadAllRows : String → List Value → σ → (List (List Value) × Option GoError) × σ
  /-- Method `ReadSingle` into a `[]interface{}`: the row, `success`, the error -/
  ReadSingleRow : String → List Value → σ → (List Value × Bool × Option GoError) × σ
  /-- Method `ReadSingle` into a `[]int64`: the row, `success`, the error -/
  ReadSingleInt64 : String → List Value → σ → (List Int × Bool × Option GoError) × σ

/-- One call of a manager method, with the statement and bound parameters. -/
inductive Call where
  | Execute (sql : String)
  | ReadAll (query : String) (params : List Value)
  | ReadSingle (query : String) (params : List Value)
  deriving DecidableEq, Repr

/-- The manager's state together with the calls made so far, oldest first. -/
structure World (σ : Type) where
  state : σ
  calls : List Call

/-- What a Go function does: it returns, or it stops with a run-time panic
(here always an index out of range). -/
inductive Outcome (α : Type) where
  | returned (a : α)
  | panicked
  deriving DecidableEq, Repr

/-- Go indexing `row[i]` with an `int` index: `none` is the index-out-of-range
panic. -/
def indexSlice {α : Type} (row : List α) (i : Int) : Option α :=
  if 0 ≤ i then row[i.toNat]? else none

/-- Go map lookup `item[key]` on a `map[string]interface{}`: a missing key gives
the zero value `nil`. -/
def mapIndex (item : List (String × Value)) (key : String) : Value :=
  (item.lookup key).getD Value.null

/-- Call `manager.Execute(sql)`, recorded. -/
def callExecute {σ : Type} (m : Manager σ) (sql : String) (w : World σ) :
    Option GoError × World σ :=
  let r := m.Execute sql w.state
  (r.1, ⟨r.2, w.calls ++ [Call.Execute sql]⟩)

/-- Call `manager.ReadAll(&rows, query, params, nil)` with `rows []nameRecord`, recorded. -/
def callReadAllRecords {σ : Type} (m : Manager σ) (query : String) (params : List Value)
    (w : World σ) : (List nameRecord × Option GoError) × World σ :=
  let r := m.ReadAllRecords query params w.state
  (r.1, ⟨r.2, w.calls ++ [Call.ReadAll query params]⟩)

/-- Call `manager.ReadAll(&records, query, params, nil)` with
`records []map[string]interface{}`, recorded. -/
def callReadAllMaps {σ : Type} (m : Manager σ) (query : String) (params : List Value)
    (w : World σ) : (List (List (String × Value)) × Option GoError) × World σ :=
  let r := m.ReadAllMaps query params w.state
  (r.1, ⟨r.2, w.calls ++ [Call.ReadAll query params]⟩)

/-- Call `manager.ReadAll(&rows, query, params, nil)` with `rows [][]interface{}`, recorded. -/
def callReadAllRows {σ : Type} (m : Manager σ) (query : String) (params : List Value)
    (w : World σ) : (List (List Value) × Option GoError) × World σ :=
  let r := m.ReadAllRows query params w.state
  (r.1, ⟨r.2, w.calls ++ [Call.ReadAll query params]⟩)

/-- Call `manager.ReadSingle(&result, query, params, nil)` with `result []interface{}`,
recorded. -/
def callReadSingleRow {σ : Type} (m : Manager σ) (query : String) (params : List Value)
    (w : World σ) : (List Value × Bool × Option GoError) × World σ :=
  let r := m.ReadSingleRow query params w.state
  (r.1, ⟨r.2, w.calls ++ [Call.ReadSingle query params]⟩)

/-- Call `manager.ReadSingle(&result, query, params, nil)` with `result []int64`, recorded. -/
def callReadSingleInt64 {σ : Type} (m : Manager σ) (query : String) (params : List Value)
    (w : World σ) : (List Int × Bool × Option GoError) × World σ :=
  let r := m.ReadSingleInt64 query params w.state
  (r.1, ⟨r.2, w.calls ++ [Call.ReadSingle query params]⟩)

/-! ## SQL templates (sql_dialect.go, lines 10-34) -/

def defaultTableSQL : String :=
  "SELECT table_name AS name FROM  information_schema.tables WHERE table_schema = ?"
def defaultSequenceSQL : String :=
  "SELECT auto_increment FROM information_schema.tables WHERE table_name = '%v' AND table_schema = DATABASE()"
def defaultKeySQL : String :=
  "SELECT column_name AS name FROM information_schema.key_column_usage WHERE table_name = '%v' AND table_schema = '%v' AND constraint_name='PRIMARY'"
def defaultSchemaSQL : String := "SELECT DATABASE() AS name"
def defaultAllSchemaSQL : String :=
  "SELECT schema_name AS name FROM  information_schema.schemata"
def mysqlDisableForeignCheck : String := "SET FOREIGN_KEY_CHECKS=0"
def mysqlEnableForeignCheck : String := "SET FOREIGN_KEY_CHECKS=1"
def schemaSQL : String := "SELECT current_schema() AS name"
def sqlLightTableSQL : String :=
  "SELECT name FROM SQLITE_MASTER WHERE type='table' AND name NOT IN('sqlite_sequence') AND LENGTH(?) > 0"
def sqlLightSequenceSQL : String :=
  "SELECT COALESCE(MAX(name), 0) + 1   FROM (SELECT seq AS name FROM SQLITE_SEQUENCE WHERE name = '%v')"
def sqlLightSchemaSQL : String := "PRAGMA database_list"
def pgSequenceSQL : String := "SELECT currval(%v) + 1"
def oraTableSQL : String := "SELECT table_name AS name  FROM all_tables WHERE owner = ?"
def oraSchemaSQL : String :=
  "SELECT sys_context( 'userenv', 'current_schema' ) AS name FROM dual"
def oraSequenceSQL : String := "SELECT %v.nextval AS name from dual"
def oraAllSchemaSQL : String := "SELECT schema_name AS name FROM all_tables GROUP BY 1"
def msSchemaSQL : String := "SELECT SCHEMA_NAME() AS name"
def msSequenceSQL : String := "SELECT current_value FROM sys.sequences WHERE  name = '%v'"

/-! ## The generic SQL dialect (sql_dialect.go, lines 40-187) -/

/-- Source `sqlDatastoreDialect`. -/
structure sqlDatastoreDialect where
  tablesSQL : String
  sequenceSQL : String
  schemaSQL : String
  allSchemaSQL : String
  keySQL : String
  disableForeignKeyCheck : String
  enableForeignKeyCheck : String
  schemaResultsetIndex : Int
  deriving DecidableEq, Repr

namespace sqlDatastoreDialect

variable {σ : Type}

/-- Source `sqlDatastoreDialect.CanCreateDatastore`. -/
def CanCreateDatastore (_d : sqlDatastoreDialect) (_m : Manager σ) : Bool := true

/-- Source `sqlDatastoreDialect.CanDropDatastore`. -/
def CanDropDatastore (_d : sqlDatastoreDialect) (_m : Manager σ) : Bool := true

/-- Source `sqlDatastoreDialect.CreateDatastore`. -/
def CreateDatastore (_d : sqlDatastoreDialect) (m : Manager σ) (datastore : String)
    (w : World σ) : Option GoError × World σ :=
  callExecute m ("CREATE DATABASE " ++ datastore) w

/-- Source `sqlDatastoreDialect.DropDatastore`. -/
def DropDatastore (_d : sqlDatastoreDialect) (m : Manager σ) (datastore : String)
    (w : World σ) : Option GoError × World σ :=
  callExecute m ("DROP DATABASE " ++ datastore) w

/-- Source `sqlDatastoreDialect.DropTable`. -/
def DropTable (_d : sqlDatastoreDialect) (m : Manager σ) (_datastore : String)
    (table : String) (w : World σ) : Option GoError × World σ :=
  callExecute m ("DROP TABLE " ++ table) w

/-- Source `sqlDatastoreDialect.CreateTable`. -/
def CreateTable (_d : sqlDatastoreDialect) (m : Manager σ) (_datastore : String)
    (table : String) (specification : String) (w : World σ) : Option GoError × World σ :=
  callExecute m ("CREATE TABLE " ++ table ++ "(" ++ specification ++ ")") w

/-- The loop of `GetTables`: `result` grows by `append` with every row whose
name has positive length. -/
def getTablesLoop : List nameRecord → List String → List String
  | [], result => result
  | row :: rows, result =>
    if row.Name.length > 0 then getTablesLoop rows (result ++ [row.Name])
    else getTablesLoop rows result

/-- Source `sqlDatastoreDialect.GetTables`.  The result pair is Go's
`([]string, error)`; `none` in the first place is the `nil` slice. -/
def GetTables (d : sqlDatastoreDialect) (m : Manager σ) (datastore : String)
    (w : World σ) : (Option (List String) × Option GoError) × World σ :=
  let r := callReadAllRecords m d.tablesSQL [Value.str datastore] w
  match r.1.2 with
  | some err => ((none, some err), r.2)
  | none => ((some (getTablesLoop r.1.1 []), none), r.2)

/-- The loop of `GetKeyName`: `result` grows with the `name` entry of every
record, as a string. -/
def getKeyNameLoop (render : Value → String) :
    List (List (String × Value)) → List String → List String
  | [], result => result
  | item :: records, result =>
    getKeyNameLoop render records (result ++ [AsString render (mapIndex item "name")])

/-- Source `sqlDatastoreDialect.GetKeyName`. -/
def GetKeyName (d : sqlDatastoreDialect) (render : Value → String) (m : Manager σ)
    (datastore table : String) (w : World σ) : String × World σ :=
  if d.keySQL = "" then ("", w)
  else
    let r := callReadAllMaps m (Sprintf d.keySQL [table, datastore]) [] w
    match r.1.2 with
    | some _ => ("", r.2)
    | none => (stringsJoin (getKeyNameLoop render r.1.1 []) ",", r.2)

/-- The loop of `GetDatastores`: every row is indexed at the schema-resultset
index (which may panic) and the normalized name is appended. -/
def getDatastoresLoop (d : sqlDatastoreDialect) (render : Value → String) :
    List (List Value) → List String → Outcome (List String)
  | [], result => Outcome.returned result
  | row :: rows, result =>
    match indexSlice row d.schemaResultsetIndex with
    | none => Outcome.panicked
    | some v => getDatastoresLoop d render rows (result ++ [normalizeName (AsString render v)])

/-- Source `sqlDatastoreDialect.GetDatastores`. -/
def GetDatastores (d : sqlDatastoreDialect) (render : Value → String) (m : Manager σ)
    (w : World σ) : Outcome (Option (List String) × Option GoError) × World σ :=
  let r := callReadAllRows m d.allSchemaSQL [] w
  match r.1.2 with
  | some err => (Outcome.returned (none, some err), r.2)
  | none =>
    match getDatastoresLoop d render r.1.1 [] with
    | Outcome.panicked => (Outcome.panicked, r.2)
    | Outcome.returned result => (Outcome.returned (some result, none), r.2)

/-- Source `sqlDatastoreDialect.GetCurrentDatastore`. -/
def GetCurrentDatastore (d : sqlDatastoreDialect) (render : Value → String) (m : Manager σ)
    (w : World σ) : Outcome (String × Option GoError) × World σ :=
  let r := callReadSingleRow m d.schemaSQL [] w
  let result := r.1.1
  let success := r.1.2.1
  let err := r.1.2.2
  if err ≠ none ∨ !success then (Outcome.returned ("", err), r.2)
  else
    match indexSlice result d.schemaResultsetIndex with
    | none => (Outcome.panicked, r.2)
    | some v => (Outcome.returned (normalizeName (AsString render v), none), r.2)

/-- Source `sqlDatastoreDialect.GetSequence`. -/
def GetSequence (d : sqlDatastoreDialect) (m : Manager σ) (name : String)
    (w : World σ) : Outcome (Int × Option GoError) × World σ :=
  let r := callReadSingleInt64 m (Sprintf d.sequenceSQL [name]) [] w
  let result := r.1.1
  let success := r.1.2.1
  let err := r.1.2.2
  if err ≠ none ∨ !success then (Outcome.returned (0, err), r.2)
  else
    match indexSlice result 0 with
    | none => (Outcome.panicked, r.2)
    | some v => (Outcome.returned (v, none), r.2)

/-- Source `sqlDatastoreDialect.DisableForeignKeyCheck`. -/
def DisableForeignKeyCheck (d : sqlDatastoreDialect) (m : Manager σ)
    (w : World σ) : Option GoError × World σ :=
  if d.disableForeignKeyCheck = "" then (none, w)
  else callExecute m d.disableForeignKeyCheck w

/-- Source `sqlDatastoreDialect.EnableForeignKeyCheck`. -/
def EnableForeignKeyCheck (d : sqlDatastoreDialect) (m : Manager σ)
    (w : World σ) : Option GoError × World σ :=
  if d.enableForeignKeyCheck = "" then (none, w)
  else callExecute m d.enableForeignKeyCheck w

/-- Source `sqlDatastoreDialect.CanPersistBatch`. -/
def CanPersistBatch (_d : sqlDatastoreDialect) : Bool := false

end sqlDatastoreDialect

/-- Source `NewSQLDatastoreDialect`. -/
def NewSQLDatastoreDialect (tablesSQL sequenceSQL schemaSQL allSchemaSQL keySQL
    disableForeignKeyCheck enableForeignKeyCheck : String) (schmeaIndex : Int) :
    sqlDatastoreDialect :=
  ⟨tablesSQL, sequenceSQL, schemaSQL, allSchemaSQL, keySQL, disableForeignKeyCheck,
    enableForeignKeyCheck, schmeaIndex⟩

/-! ## Engine variants (sql_dialect.go, lines 189-258)

Each variant embeds the `DatastoreDialect` built by `NewSQLDatastoreDialect`;
a method the variant does not define itself is the embedded dialect's. -/

/-- Source `mySQLDialect`. -/
structure mySQLDialect where
  DatastoreDialect : sqlDatastoreDialect

/-- Source `newMySQLDialect`. -/
def newMySQLDialect : mySQLDialect :=
  ⟨NewSQLDatastoreDialect defaultTableSQL defaultSequenceSQL defaultSchemaSQL
    defaultAllSchemaSQL defaultKeySQL mysqlDisableForeignCheck mysqlEnableForeignCheck 0⟩

/-- Source `sqlLiteDialect`. -/
structure sqlLiteDialect where
  DatastoreDialect : sqlDatastoreDialect

namespace sqlLiteDialect

variable {σ : Type}

/-- Source `sqlLiteDialect.CreateDatastore`. -/
def CreateDatastore (_d : sqlLiteDialect) (_m : Manager σ) (_datastore : String)
    (w : World σ) : Option GoError × World σ :=
  (none, w)

/-- Promoted method: `d.GetTables` is the embedded dialect's. -/
def GetTables (d : sqlLiteDialect) (m : Manager σ) (datastore : String) (w : World σ) :
    (Option (List String) × Option GoError) × World σ :=
  d.DatastoreDialect.GetTables m datastore w

/-- Promoted method: `d.DropTable` is the embedded dialect's. -/
def DropTable (d : sqlLiteDialect) (m : Manager σ) (datastore table : String)
    (w : World σ) : Option GoError × World σ :=
  d.DatastoreDialect.DropTable m datastore table w

/-- Promoted method: `d.GetKeyName` is the embedded dialect's. -/
def GetKeyName (d : sqlLiteDialect) (render : Value → String) (m : Manager σ)
    (datastore table : String) (w : World σ) : String × World σ :=
  d.DatastoreDialect.GetKeyName render m datastore table w

/-- The loop of `sqlLiteDialect.DropDatastore` over `tables`; `err` is the outer
variable that the final `return err` hands back once the loop has run out. -/
def dropDatastoreLoop (d : sqlLiteDialect) (m : Manager σ) (datastore : String)
    (err : Option GoError) : List String → World σ → Option GoError × World σ
  | [], w => (err, w)
  | table :: tables, w =>
    let r := d.DropTable m datastore table w
    match r.1 with
    | some err' => (some err', r.2)
    | none => dropDatastoreLoop d m datastore err tables r.2

/-- Source `sqlLiteDialect.DropDatastore`. -/
def DropDatastore (d : sqlLiteDialect) (m : Manager σ) (datastore : String)
    (w : World σ) : Option GoError × World σ :=
  let r := d.GetTables m datastore w
  let tables := r.1.1
  let err := r.1.2
  match err with
  | some e => (some e, r.2)
  | none => dropDatastoreLoop d m datastore err (tables.getD []) r.2

end sqlLiteDialect

/-- Source `newSQLLiteDialect`. -/
def newSQLLiteDialect : sqlLiteDialect :=
  ⟨NewSQLDatastoreDialect sqlLightTableSQL sqlLightSequenceSQL sqlLightSchemaSQL
    sqlLightSchemaSQL "" "" "" 2⟩

/-- Source `pgDialect`. -/
structure pgDialect where
  DatastoreDialect : sqlDatastoreDialect

/-- Promoted method: `d.GetKeyName` is the embedded dialect's. -/
def pgDialect.GetKeyName {σ : Type} (d : pgDialect) (render : Value → String) (m : Manager σ)
    (datastore table : String) (w : World σ) : String × World σ :=
  d.DatastoreDialect.GetKeyName render m datastore table w

/-- Source `newPgDialect`. -/
def newPgDialect : pgDialect :=
  ⟨NewSQLDatastoreDialect sqlLightTableSQL pgSequenceSQL schemaSQL defaultAllSchemaSQL
    "" "" "" 0⟩

/-- Source `oraDialect`. -/
structure oraDialect where
  DatastoreDialect : sqlDatastoreDialect

namespace oraDialect

variable {σ : Type}

/-- Source `oraDialect.CreateDatastore`. -/
def CreateDatastore (_d : oraDialect) (m : Manager σ) (datastore : String)
    (w : World σ) : Option GoError × World σ :=
  callExecute m ("CREATE SCHEMA IF NOT EXISTS " ++ datastore) w

/-- Source `oraDialect.DropDatastore`. -/
def DropDatastore (_d : oraDialect) (m : Manager σ) (datastore : String)
    (w : World σ) : Option GoError × World σ :=
  callExecute m ("DROP SCHEMA " ++ datastore) w

/-- Promoted method: `d.GetKeyName` is the embedded dialect's. -/
def GetKeyName (d : oraDialect) (render : Value → String) (m : Manager σ)
    (datastore table : String) (w : World σ) : String × World σ :=
  d.DatastoreDialect.GetKeyName render m datastore table w

end oraDialect

/-- Source `newOraDialect`. -/
def newOraDialect : oraDialect :=
  ⟨NewSQLDatastoreDialect oraTableSQL oraSequenceSQL oraSchemaSQL oraAllSchemaSQL
    "" "" "" 0⟩

/-- Source `msSQLDialect`. -/
structure msSQLDialect where
  DatastoreDialect : sqlDatastoreDialect

/-- Promoted method: `d.GetKeyName` is the embedded dialect's. -/
def msSQLDialect.GetKeyName {σ : Type} (d : msSQLDialect) (render : Value → String)
    (m : Manager σ) (datastore table : String) (w : World σ) : String × World σ :=
  d.DatastoreDialect.GetKeyName render m datastore table w

/-- Source `newMsSQLDialect`. -/
def newMsSQLDialect : msSQLDialect :=
  ⟨NewSQLDatastoreDialect defaultTableSQL msSequenceSQL msSchemaSQL defaultAllSchemaSQL
    "" "" "" 0⟩

/-! ## Further promoted methods of the variants

A variant that does not define a method has the method of its embedded dialect. -/

/-- Promoted method: `d.CanCreateDatastore` is the embedded dialect's. -/
def mySQLDialect.CanCreateDatastore {σ : Type} (d : mySQLDialect) (m : Manager σ) :
    Bool :=
  d.DatastoreDialect.CanCreateDatastore m

/-- Promoted method: `d.CanDropDatastore` is the embedded dialect's. -/
def mySQLDialect.CanDropDatastore {σ : Type} (d : mySQLDialect) (m : Manager σ) :
    Bool :=
  d.DatastoreDialect.CanDropDatastore m

/-- Promoted method: `d.CanPersistBatch` is the embedded dialect's. -/
def mySQLDialect.CanPersistBatch (d : mySQLDialect) : Bool :=
  d.DatastoreDialect.CanPersistBatch

/-- Promoted method: `d.DisableForeignKeyCheck` is the embedded dialect's. -/
def mySQLDialect.DisableForeignKeyCheck {σ : Type} (d : mySQLDialect) (m : Manager σ) (w : World σ) :
    Option GoError × World σ :=
  d.DatastoreDialect.DisableForeignKeyCheck m w

/-- Promoted method: `d.EnableForeignKeyCheck` is the embedded dialect's. -/
def mySQLDialect.EnableForeignKeyCheck {σ : Type} (d : mySQLDialect) (m : Manager σ) (w : World σ) :
    Option GoError × World σ :=
  d.DatastoreDialect.EnableForeignKeyCheck m w

/-- Promoted method: `d.CanCreateDatastore` is the embedded dialect's. -/
def sqlLiteDialect.CanCreateDatastore {σ : Type} (d : sqlLiteDialect) (m : Manager σ) :
    Bool :=
  d.DatastoreDialect.CanCreateDatastore m

/-- Promoted method: `d.CanDropDatastore` is the embedded dialect's. -/
def sqlLiteDialect.CanDropDatastore {σ : Type} (d : sqlLiteDialect) (m : Manager σ) :
    Bool :=
  d.DatastoreDialect.CanDropDatastore m

/-- Promoted method: `d.CanPersistBatch` is the embedded dialect's. -/
def sqlLiteDialect.CanPersistBatch (d : sqlLiteDialect) : Bool :=
  d.DatastoreDialect.CanPersistBatch

/-- Promoted method: `d.DisableForeignKeyCheck` is the embedded dialect's. -/
def sqlLiteDialect.DisableForeignKeyCheck {σ : Type} (d : sqlLiteDialect) (m : Manager σ) (w : World σ) :
    Option GoError × World σ :=
  d.DatastoreDialect.DisableForeignKeyCheck m w

/-- Promoted method: `d.EnableForeignKeyCheck` is the embedded dialect's. -/
def sqlLiteDialect.EnableForeignKeyCheck {σ : Type} (d : sqlLiteDialect) (m : Manager σ) (w : World σ) :
    Option GoError × World σ :=
  d.DatastoreDialect.EnableForeignKeyCheck m w

/-- Promoted method: `d.CanCreateDatastore` is the embedded dialect's. -/
def pgDialect.CanCreateDatastore {σ : Type} (d : pgDialect) (m : Manager σ) :
    Bool :=
  d.DatastoreDialect.CanCreateDatastore m

/-- Promoted method: `d.CanDropDatastore` is the embedded dialect's. -/
def pgDialect.CanDropDatastore {σ : Type} (d : pgDialect) (m : Manager σ) :
    Bool :=
  d.DatastoreDialect.CanDropDatastore m

/-- Promoted method: `d.CanPersistBatch` is the embedded dialect's. -/
def pgDialect.CanPersistBatch (d : pgDialect) : Bool :=
  d.DatastoreDialect.CanPersistBatch

/-- Promoted method: `d.DisableForeignKeyCheck` is the embedded dialect's. -/
def pgDialect.DisableForeignKeyCheck {σ : Type} (d : pgDialect) (m : Manager σ) (w : World σ) :
    Option GoError × World σ :=
  d.DatastoreDialect.DisableForeignKeyCheck m w

/-- Promoted method: `d.EnableForeignKeyCheck` is the embedded dialect's. -/
def pgDialect.EnableForeignKeyCheck {σ : Type} (d : pgDialect) (m : Manager σ) (w : World σ) :
    Option GoError × World σ :=
  d.DatastoreDialect.EnableForeignKeyCheck m w

/-- Promoted method: `d.CanCreateDatastore` is the embedded dialect's. -/
def oraDialect.CanCreateDatastore {σ : Type} (d : oraDialect) (m : Manager σ) :
    Bool :=
  d.DatastoreDialect.CanCreateDatastore m

/-- Promoted method: `d.CanDropDatastore` is the embedded dialect's. -/
def oraDialect.CanDropDatastore {σ : Type} (d : oraDialect) (m : Manager σ) :
    Bool :=
  d.DatastoreDialect.CanDropDatastore m

/-- Promoted method: `d.CanPersistBatch` is the embedded dialect's. -/
def oraDialect.CanPersistBatch (d : oraDialect) : Bool :=
  d.DatastoreDialect.CanPersistBatch

/-- Promoted method: `d.DisableForeignKeyCheck` is the embedded dialect's. -/
def oraDialect.DisableForeignKeyCheck {σ : Type} (d : oraDialect) (m : Manager σ) (w : World σ) :
    Option GoError × World σ :=
  d.DatastoreDialect.DisableForeignKeyCheck m w

/-- Promoted method: `d.EnableForeignKeyCheck` is the embedded dialect's. -/
def oraDialect.EnableForeignKeyCheck {σ : Type} (d : oraDialect) (m : Manager σ) (w : World σ) :
    Option GoError × World σ :=
  d.DatastoreDialect.EnableForeignKeyCheck m w

/-- Promoted method: `d.CanCreateDatastore` is the embedded dialect's. -/
def msSQLDialect.CanCreateDatastore {σ : Type} (d : msSQLDialect) (m : Manager σ) :
    Bool :=
  d.DatastoreDialect.CanCreateDatastore m

/-- Promoted method: `d.CanDropDatastore` is the embedded dialect's. -/
def msSQLDialect.CanDropDatastore {σ : Type} (d : msSQLDialect) (m : Manager σ) :
    Bool :=
  d.DatastoreDialect.CanDropDatastore m

/-- Promoted method: `d.CanPersistBatch` is the embedded dialect's. -/
def msSQLDialect.CanPersistBatch (d : msSQLDialect) : Bool :=
  d.DatastoreDialect.CanPersistBatch

/-- Promoted method: `d.DisableForeignKeyCheck` is the embedded dialect's. -/
def msSQLDialect.DisableForeignKeyCheck {σ : Type} (d : msSQLDialect) (m : Manager σ) (w : World σ) :
    Option GoError × World σ :=
  d.DatastoreDialect.DisableForeignKeyCheck m w

/-- Promoted method: `d.EnableForeignKeyCheck` is the embedded dialect's. -/
def msSQLDialect.EnableForeignKeyCheck {σ : Type} (d : msSQLDialect) (m : Manager σ) (w : World σ) :
    Option GoError × World σ :=
  d.DatastoreDialect.EnableForeignKeyCheck m w

/-- Promoted method: `d.CreateDatastore` is the embedded dialect's. -/
def mySQLDialect.CreateDatastore {σ : Type} (d : mySQLDialect) (m : Manager σ) (datastore : String)
    (w : World σ) :
    Option GoError × World σ :=
  d.DatastoreDialect.CreateDatastore m datastore w

/-- Promoted method: `d.CreateDatastore` is the embedded dialect's. -/
def pgDialect.CreateDatastore {σ : Type} (d : pgDialect) (m : Manager σ) (datastore : String)
    (w : World σ) :
    Option GoError × World σ :=
  d.DatastoreDialect.CreateDatastore m datastore w

/-- Promoted method: `d.CreateDatastore` is the embedded dialect's. -/
def msSQLDialect.CreateDatastore {σ : Type} (d : msSQLDialect) (m : Manager σ) (datastore : String)
    (w : World σ) :
    Option GoError × World σ :=
  d.DatastoreDialect.CreateDatastore m datastore w

/-- Promoted method: `d.GetKeyName` is the embedded dialect's. -/
def mySQLDialect.GetKeyName {σ : Type} (d : mySQLDialect) (render : Value → String)
    (m : Manager σ) (datastore table : String) (w : World σ) :
    String × World σ :=
  d.DatastoreDialect.GetKeyName render m datastore table w

/-- Promoted method: `d.GetCurrentDatastore` is the embedded dialect's. -/
def sqlLiteDialect.GetCurrentDatastore {σ : Type} (d : sqlLiteDialect) (render : Value → String)
    (m : Manager σ) (w : World σ) :
    Outcome (String × Option GoError) × World σ :=
  d.DatastoreDialect.GetCurrentDatastore render m w

/-- Whether a recorded call is an `Execute`. -/
def Call.isExecute : Call → Bool
  | Call.Execute _ => true
  | _ => false

/-! ## Managers used to evaluate the operations on concrete inputs -/

/-- A scripted manager.  Its state is the number of calls answered so far;
`Execute` fails with `errs k` at call number `k` when that is an error, and the
read methods hand back fixed containers. -/
def scriptedManager (errs : Nat → Option GoError) (records : List nameRecord)
    (maps : List (List (String × Value))) (rows : List (List Value)) (row : List Value)
    (ints : List Int) (found : Bool) (readErr : Option GoError) : Manager Nat where
  Execute := fun _ k => (errs k, k + 1)
  ReadAllRecords := fun _ _ k => ((records, readErr), k + 1)
  ReadAllMaps := fun _ _ k => ((maps, readErr), k + 1)
  ReadAllRows := fun _ _ k => ((rows, readErr), k + 1)
  ReadSingleRow := fun _ _ k => ((row, found, readErr), k + 1)
  ReadSingleInt64 := fun _ _ k => ((ints, found, readErr), k + 1)

/-! ## Auxiliary notions for stating what a run of statements does -/

/-- The manager state reached from `s` once the statements `sqls` have been
executed one after the other. -/
def stateAfterExecutes {σ : Type} (m : Manager σ) (s : σ) : List String → σ
  | [] => s
  | q :: qs => stateAfterExecutes m (m.Execute q s).2 qs

/-- The error `Execute` answers for statement number `j` (counting from 0) of
`sqls`, the statements before it having been executed from state `s`; `none`
(no error) also when there is no such statement. -/
def executeErrAt {σ : Type} (m : Manager σ) (s : σ) (sqls : List String) (j : Nat) :
    Option GoError :=
  match sqls[j]? with
  | none => none
  | some q => (m.Execute q (stateAfterExecutes m s (sqls.take j))).1



/-! ## Lemmas on the name normalizer -/

theorem any_tails_singleton (c : Char) (l : List Char) :
    l.tails.any (fun t => [c].isPrefixOf t) = true ↔ c ∈ l := by
  induction l with
  | nil => simp [List.tails, List.isPrefixOf]
  | cons x xs ih =>
    rw [List.tails, List.any_cons, Bool.or_eq_true, ih, List.mem_cons]
    have hx : [c].isPrefixOf (x :: xs) = true ↔ c = x := by
      simp [List.isPrefixOf]
    rw [hx]

theorem stringsContains_slash (s : String) :
    stringsContains s "/" = true ↔ '/' ∈ s.data :=
  any_tails_singleton '/' s.data

/-- What the backward scan returns: `-1` when no position below `n` holds `c`,
otherwise the greatest position below `n` that holds `c`. -/
theorem lastIndexByteFrom_spec (s : List Char) (c : Char) (n : Nat) :
    (lastIndexByteFrom s c n = -1 ∧ ∀ j, j < n → s[j]? ≠ some c) ∨
    (∃ k : Nat, lastIndexByteFrom s c n = (k : Int) ∧ k < n ∧ s[k]? = some c ∧
      ∀ j, k < j → j < n → s[j]? ≠ some c) := by
  induction n with
  | zero => left; simp [lastIndexByteFrom]
  | succ n ih =>
    by_cases h : s[n]? = some c
    · right
      refine ⟨n, by simp [lastIndexByteFrom, h], Nat.lt_succ_self n, h, ?_⟩
      intro j h1 h2; omega
    · rcases ih with ⟨h0, hall⟩ | ⟨k, hk, hlt, hc, hall⟩
      · left
        refine ⟨by simp [lastIndexByteFrom, h, h0], ?_⟩
        intro j hj
        rcases Nat.lt_succ_iff_lt_or_eq.mp hj with hj | hj
        · exact hall j hj
        · subst hj; exact h
      · right
        refine ⟨k, by simp [lastIndexByteFrom, h, hk], Nat.lt_succ_of_lt hlt, hc, ?_⟩
        intro j h1 h2
        rcases Nat.lt_succ_iff_lt_or_eq.mp h2 with hj | hj
        · exact hall j h1 hj
        · subst hj; exact h

theorem not_mem_of_getElem?_ne (l : List Char) (c : Char)
    (h : ∀ j, j < l.length → l[j]? ≠ some c) : c ∉ l := by
  intro hc
  obtain ⟨i, hi, rfl⟩ := List.getElem_of_mem hc
  exact h i hi (List.getElem?_eq_getElem hi)

/-- The file part of `path.Split`: the text behind the last `/`, or the whole
path when it has no `/`. -/
theorem pathSplit_snd_spec (p : String) :
    ('/' ∉ p.data ∧ (pathSplit p).2 = p) ∨
    (∃ pre : List Char, p.data = pre ++ '/' :: (pathSplit p).2.data ∧
      '/' ∉ (pathSplit p).2.data) := by
  rcases lastIndexByteFrom_spec p.data '/' p.data.length with ⟨h0, hall⟩ | ⟨k, hk, hlt, hc, hall⟩
  · left
    refine ⟨not_mem_of_getElem?_ne _ _ hall, ?_⟩
    simp only [pathSplit, lastIndexByte, h0]
    rfl
  · right
    have hsnd : (pathSplit p).2.data = p.data.drop (k + 1) := by
      simp only [pathSplit, lastIndexByte, hk]
      congr 1
    refine ⟨p.data.take k, ?_, ?_⟩
    · rw [hsnd]
      have hget : p.data[k] = '/' := by
        have := List.getElem?_eq_getElem hlt
        rw [this] at hc
        exact Option.some.inj hc
      rw [← hget, ← List.drop_eq_getElem_cons hlt, List.take_append_drop]
    · rw [hsnd]
      apply not_mem_of_getElem?_ne
      intro j hj
      rw [List.getElem?_drop]
      rw [List.length_drop] at hj
      apply hall <;> omega

/-- The normalizer is `path.Split`'s file part on every input: the guard only
returns early what the split would return anyway. -/
theorem normalizeName_eq_split (name : String) : normalizeName name = (pathSplit name).2 := by
  unfold normalizeName
  split
  · rename_i h
    have hs : ¬ stringsContains name "/" = true := by
      intro hc; simp [hc] at h
    rw [stringsContains_slash] at hs
    rcases pathSplit_snd_spec name with ⟨_, h2⟩ | ⟨pre, h1, _⟩
    · exact h2.symm
    · exact absurd (by rw [h1]; simp) hs
  · rfl

theorem normalizeName_of_no_slash (name : String) (h : '/' ∉ name.data) :
    normalizeName name = name := by
  rw [normalizeName_eq_split]
  rcases pathSplit_snd_spec name with ⟨_, h2⟩ | ⟨pre, h1, _⟩
  · exact h2
  · exact absurd (by rw [h1]; simp) h

theorem normalizeName_no_slash (name : String) : '/' ∉ (normalizeName name).data := by
  rw [normalizeName_eq_split]
  rcases pathSplit_snd_spec name with ⟨h1, h2⟩ | ⟨pre, _, h2⟩
  · rw [h2]; exact h1
  · exact h2

/-! ## Claims on the name normalizer -/

/-- C1: `normalizeName` is idempotent: normalizing an already normalized name
changes nothing, for every string. -/
theorem normalizeName_idempotent (x : String) :
    normalizeName (normalizeName x) = normalizeName x :=
  normalizeName_of_no_slash _ (normalizeName_no_slash x)

/-- C2: for a name without a backslash, `normalizeName` returns the name itself
when it has no `/`, and otherwise exactly the text behind the last `/`: the
name is some prefix, a `/`, and the result, and the result has no `/`.
`"schema"` gives `"schema"` and `"/var/db/main.sqlite"` gives `"main.sqlite"`. -/
theorem normalizeName_slash_separated (name : String) (_hb : '\\' ∉ name.data) :
    ('/' ∉ name.data → normalizeName name = name) ∧
    ('/' ∈ name.data →
      (∃ pre : String, name = pre ++ "/" ++ normalizeName name) ∧
      '/' ∉ (normalizeName name).data) ∧
    normalizeName "schema" = "schema" ∧
    normalizeName "/var/db/main.sqlite" = "main.sqlite" := by
  refine ⟨normalizeName_of_no_slash name, ?_, by decide, by decide⟩
  intro hs
  refine ⟨?_, normalizeName_no_slash name⟩
  rw [normalizeName_eq_split]
  rcases pathSplit_snd_spec name with ⟨h1, _⟩ | ⟨pre, h1, _⟩
  · exact absurd hs h1
  · refine ⟨⟨pre⟩, ?_⟩
    apply String.ext
    rw [h1]
    simp [String.data_append]

/-- Witness for C2 at the name `a/b/c`, which has no backslash. -/
theorem normalizeName_slash_separated_witness :
    '\\' ∉ "a/b/c".data ∧
    (('/' ∉ "a/b/c".data → normalizeName "a/b/c" = "a/b/c") ∧
    ('/' ∈ "a/b/c".data →
      (∃ pre : String, "a/b/c" = pre ++ "/" ++ normalizeName "a/b/c") ∧
      '/' ∉ (normalizeName "a/b/c").data) ∧
    normalizeName "schema" = "schema" ∧
    normalizeName "/var/db/main.sqlite" = "main.sqlite") :=
  ⟨by decide, normalizeName_slash_separated "a/b/c" (by decide)⟩

/-- C3 (evaluation at the failing input): a name with backslashes and no `/`
comes back unchanged, so `C:\data\main.db` is not reduced to `main.db`. -/
theorem normalizeName_backslash_path :
    normalizeName "C:\\data\\main.db" = "C:\\data\\main.db" ∧
    normalizeName "C:\\data\\main.db" ≠ "main.db" := by
  decide

/-! ## Lemmas on the loops of the generic dialect -/

theorem string_length_pos_iff (s : String) : s.length > 0 ↔ s ≠ "" := by
  cases s with
  | mk l =>
    cases l with
    | nil => simp [String.length]
    | cons a t =>
      simp only [String.length, List.length_cons, gt_iff_lt, Nat.zero_lt_succ, true_iff]
      intro h
      exact absurd (congrArg String.data h) (by simp)

theorem getTablesLoop_eq (rows : List nameRecord) (result : List String) :
    sqlDatastoreDialect.getTablesLoop rows result =
      result ++ (rows.map (fun row => row.Name)).filter (fun n => decide (n ≠ "")) := by
  induction rows generalizing result with
  | nil => simp [sqlDatastoreDialect.getTablesLoop]
  | cons row rows ih =>
    by_cases h : row.Name.length > 0
    · have h2 := (string_length_pos_iff _).mp h
      simp [sqlDatastoreDialect.getTablesLoop, h, ih, h2]
    · have h2 : row.Name = "" := by
        by_contra hc
        exact h ((string_length_pos_iff _).mpr hc)
      simp [sqlDatastoreDialect.getTablesLoop, h, ih, h2]

/-! ## Claims on the generic dialect -/

/-- C4: when the manager's `ReadAll` succeeds and fills the rows, `GetTables`
returns with a nil error the names of the rows that are non-empty, in row order
(rows `a`, empty, `b` give `a`, `b`); when `ReadAll` returns an error,
`GetTables` returns the nil list and that same error. -/
theorem GetTables_filters_empty_names {σ : Type} (d : sqlDatastoreDialect) (m : Manager σ)
    (datastore : String) (w : World σ) :
    (∀ rows s, m.ReadAllRecords d.tablesSQL [Value.str datastore] w.state = ((rows, none), s) →
      (d.GetTables m datastore w).1 =
        (some ((rows.map (fun row => row.Name)).filter (fun n => decide (n ≠ ""))), none)) ∧
    (∀ rows e s,
      m.ReadAllRecords d.tablesSQL [Value.str datastore] w.state = ((rows, some e), s) →
      (d.GetTables m datastore w).1 = (none, some e)) ∧
    (newMySQLDialect.DatastoreDialect.GetTables
      (scriptedManager (fun _ => none) [⟨"a"⟩, ⟨""⟩, ⟨"b"⟩] [] [] [] [] false none)
      "db" ⟨0, []⟩).1 = (some ["a", "b"], none) := by
  refine ⟨?_, ?_, by decide⟩
  · intro rows s h
    simp [sqlDatastoreDialect.GetTables, callReadAllRecords, h, getTablesLoop_eq]
  · intro rows e s h
    simp [sqlDatastoreDialect.GetTables, callReadAllRecords, h]

/-- Witness for C4: a manager whose `ReadAll` fills the rows `x`, empty, `y`, and
one whose `ReadAll` fails. -/
theorem GetTables_filters_empty_names_witness :
    (newPgDialect.DatastoreDialect.GetTables
      (scriptedManager (fun _ => none) [⟨"x"⟩, ⟨""⟩, ⟨"y"⟩] [] [] [] [] false none)
      "db" ⟨0, []⟩).1 = (some ["x", "y"], none) ∧
    (newPgDialect.DatastoreDialect.GetTables
      (scriptedManager (fun _ => none) [⟨"x"⟩] [] [] [] [] false (some ⟨"down"⟩))
      "db" ⟨0, []⟩).1 = (none, some ⟨"down"⟩) :=
  ⟨(GetTables_filters_empty_names newPgDialect.DatastoreDialect
      (scriptedManager (fun _ => none) [⟨"x"⟩, ⟨""⟩, ⟨"y"⟩] [] [] [] [] false none)
      "db" ⟨0, []⟩).1 [⟨"x"⟩, ⟨""⟩, ⟨"y"⟩] 1 rfl,
   (GetTables_filters_empty_names newPgDialect.DatastoreDialect
      (scriptedManager (fun _ => none) [⟨"x"⟩] [] [] [] [] false (some ⟨"down"⟩))
      "db" ⟨0, []⟩).2.1 [⟨"x"⟩] ⟨"down"⟩ 1 rfl⟩

/-! ## Lemmas on SQLite's drop loop -/

theorem executeErrAt_zero {σ : Type} (m : Manager σ) (s : σ) (q : String) (qs : List String) :
    executeErrAt m s (q :: qs) 0 = (m.Execute q s).1 := by
  simp [executeErrAt, stateAfterExecutes]

theorem executeErrAt_succ {σ : Type} (m : Manager σ) (s : σ) (q : String) (qs : List String)
    (j : Nat) :
    executeErrAt m s (q :: qs) (j + 1) = executeErrAt m (m.Execute q s).2 qs j := by
  simp [executeErrAt, stateAfterExecutes]

/-- When no drop fails the loop issues every drop and hands back the outer `err`. -/
theorem dropDatastoreLoop_all_succeed {σ : Type} (d : sqlLiteDialect) (m : Manager σ)
    (datastore : String) (err : Option GoError) (ts : List String) (w : World σ)
    (h : ∀ j, j < ts.length →
      executeErrAt m w.state (ts.map (fun t => "DROP TABLE " ++ t)) j = none) :
    (d.dropDatastoreLoop m datastore err ts w).1 = err ∧
    (d.dropDatastoreLoop m datastore err ts w).2.calls =
      w.calls ++ (ts.map (fun t => "DROP TABLE " ++ t)).map Call.Execute := by
  induction ts generalizing w with
  | nil => simp [sqlLiteDialect.dropDatastoreLoop]
  | cons t ts ih =>
    have h0 : (m.Execute ("DROP TABLE " ++ t) w.state).1 = none := by
      have := h 0 (by simp)
      rwa [List.map_cons, executeErrAt_zero] at this
    have hrest := ih ⟨(m.Execute ("DROP TABLE " ++ t) w.state).2,
        w.calls ++ [Call.Execute ("DROP TABLE " ++ t)]⟩ (by
      intro j hj
      have := h (j + 1) (by simpa using hj)
      rwa [List.map_cons, executeErrAt_succ] at this)
    simp only [sqlLiteDialect.dropDatastoreLoop, sqlLiteDialect.DropTable,
      sqlDatastoreDialect.DropTable, callExecute, h0]
    simpa using hrest

/-- When drop number `k` (from 0) is the first to fail, the loop returns its
error after issuing the drops up to and including it. -/
theorem dropDatastoreLoop_first_failure {σ : Type} (d : sqlLiteDialect) (m : Manager σ)
    (datastore : String) (err : Option GoError) (ts : List String) (w : World σ)
    (k : Nat) (e : GoError) (hk : k < ts.length)
    (hok : ∀ j, j < k →
      executeErrAt m w.state (ts.map (fun t => "DROP TABLE " ++ t)) j = none)
    (hfail : executeErrAt m w.state (ts.map (fun t => "DROP TABLE " ++ t)) k = some e) :
    (d.dropDatastoreLoop m datastore err ts w).1 = some e ∧
    (d.dropDatastoreLoop m datastore err ts w).2.calls =
      w.calls ++ ((ts.map (fun t => "DROP TABLE " ++ t)).take (k + 1)).map Call.Execute := by
  induction ts generalizing w k with
  | nil => simp at hk
  | cons t ts ih =>
    cases k with
    | zero =>
      rw [List.map_cons, executeErrAt_zero] at hfail
      simp [sqlLiteDialect.dropDatastoreLoop, sqlLiteDialect.DropTable,
        sqlDatastoreDialect.DropTable, callExecute, hfail]
    | succ k =>
      have h0 : (m.Execute ("DROP TABLE " ++ t) w.state).1 = none := by
        have := hok 0 (Nat.succ_pos k)
        rwa [List.map_cons, executeErrAt_zero] at this
      have hrest := ih ⟨(m.Execute ("DROP TABLE " ++ t) w.state).2,
          w.calls ++ [Call.Execute ("DROP TABLE " ++ t)]⟩ k (by simpa using hk) (by
        intro j hj
        have := hok (j + 1) (by omega)
        rwa [List.map_cons, executeErrAt_succ] at this) (by
        rwa [List.map_cons, executeErrAt_succ] at hfail)
      simp only [sqlLiteDialect.dropDatastoreLoop, sqlLiteDialect.DropTable,
        sqlDatastoreDialect.DropTable, callExecute, h0]
      simpa using hrest

/-! ## Claims on SQLite's `DropDatastore` -/

/-- C5: when the table listing returns `ts`, SQLite's `DropDatastore` issues
`DROP TABLE t` for the tables of `ts` in order and nothing else: if every drop
succeeds it returns nil after all of them; if drop number `k + 1` is the first
to fail, with error `e`, it returns `e` after exactly the first `k + 1` drops.
For tables `t1`, `t2` with the first drop failing, `DROP TABLE t2` is not
issued. -/
theorem sqlLite_DropDatastore_drops_in_order {σ : Type} (d : sqlLiteDialect) (m : Manager σ)
    (datastore : String) (w w1 : World σ) (ts : List String)
    (hl : d.GetTables m datastore w = ((some ts, none), w1)) :
    ((∀ j, j < ts.length →
        executeErrAt m w1.state (ts.map (fun t => "DROP TABLE " ++ t)) j = none) →
      (d.DropDatastore m datastore w).1 = none ∧
      (d.DropDatastore m datastore w).2.calls =
        w1.calls ++ (ts.map (fun t => "DROP TABLE " ++ t)).map Call.Execute) ∧
    (∀ k e, k < ts.length →
      (∀ j, j < k →
        executeErrAt m w1.state (ts.map (fun t => "DROP TABLE " ++ t)) j = none) →
      executeErrAt m w1.state (ts.map (fun t => "DROP TABLE " ++ t)) k = some e →
      (d.DropDatastore m datastore w).1 = some e ∧
      (d.DropDatastore m datastore w).2.calls =
        w1.calls ++ ((ts.map (fun t => "DROP TABLE " ++ t)).take (k + 1)).map Call.Execute) ∧
    (newSQLLiteDialect.DropDatastore
        (scriptedManager (fun k => if k = 1 then some ⟨"locked"⟩ else none)
          [⟨"t1"⟩, ⟨"t2"⟩] [] [] [] [] false none) "db" ⟨0, []⟩).1 = some ⟨"locked"⟩ ∧
    (newSQLLiteDialect.DropDatastore
        (scriptedManager (fun k => if k = 1 then some ⟨"locked"⟩ else none)
          [⟨"t1"⟩, ⟨"t2"⟩] [] [] [] [] false none) "db" ⟨0, []⟩).2.calls =
      [Call.ReadAll sqlLightTableSQL [Value.str "db"], Call.Execute "DROP TABLE t1"] := by
  have hrun : d.DropDatastore m datastore w = d.dropDatastoreLoop m datastore none ts w1 := by
    simp [sqlLiteDialect.DropDatastore, hl]
  refine ⟨?_, ?_, by decide, by decide⟩
  · intro h
    rw [hrun]
    exact dropDatastoreLoop_all_succeed d m datastore none ts w1 h
  · intro k e hk hok hfail
    rw [hrun]
    exact dropDatastoreLoop_first_failure d m datastore none ts w1 k e hk hok hfail

/-- Witness for C5: tables `t1`, `t2`; with a manager on which every drop
succeeds both drops are issued, and with one whose second drop fails the error
comes back after the two drops. -/
theorem sqlLite_DropDatastore_drops_in_order_witness :
    ((newSQLLiteDialect.DropDatastore
        (scriptedManager (fun _ => none) [⟨"t1"⟩, ⟨"t2"⟩] [] [] [] [] false none)
        "db" ⟨0, []⟩).1 = none ∧
      (newSQLLiteDialect.DropDatastore
        (scriptedManager (fun _ => none) [⟨"t1"⟩, ⟨"t2"⟩] [] [] [] [] false none)
        "db" ⟨0, []⟩).2.calls =
        [Call.ReadAll sqlLightTableSQL [Value.str "db"]] ++
          (["t1", "t2"].map (fun t => "DROP TABLE " ++ t)).map Call.Execute) ∧
    ((newSQLLiteDialect.DropDatastore
        (scriptedManager (fun k => if k = 2 then some ⟨"busy"⟩ else none)
          [⟨"t1"⟩, ⟨"t2"⟩] [] [] [] [] false none) "db" ⟨0, []⟩).1 = some ⟨"busy"⟩ ∧
      (newSQLLiteDialect.DropDatastore
        (scriptedManager (fun k => if k = 2 then some ⟨"busy"⟩ else none)
          [⟨"t1"⟩, ⟨"t2"⟩] [] [] [] [] false none) "db" ⟨0, []⟩).2.calls =
        [Call.ReadAll sqlLightTableSQL [Value.str "db"]] ++
          ((["t1", "t2"].map (fun t => "DROP TABLE " ++ t)).take (1 + 1)).map Call.Execute) :=
  ⟨(sqlLite_DropDatastore_drops_in_order newSQLLiteDialect
      (scriptedManager (fun _ => none) [⟨"t1"⟩, ⟨"t2"⟩] [] [] [] [] false none)
      "db" ⟨0, []⟩ ⟨1, [Call.ReadAll sqlLightTableSQL [Value.str "db"]]⟩ ["t1", "t2"] rfl).1
      (by intro j hj
          have hj2 : j = 0 ∨ j = 1 := by
            have : j < 2 := hj
            omega
          rcases hj2 with rfl | rfl <;> rfl),
   (sqlLite_DropDatastore_drops_in_order newSQLLiteDialect
      (scriptedManager (fun k => if k = 2 then some ⟨"busy"⟩ else none)
        [⟨"t1"⟩, ⟨"t2"⟩] [] [] [] [] false none)
      "db" ⟨0, []⟩ ⟨1, [Call.ReadAll sqlLightTableSQL [Value.str "db"]]⟩ ["t1", "t2"] rfl).2.1
      1 ⟨"busy"⟩ (by decide)
      (by intro j hj; obtain rfl : j = 0 := by omega
          rfl)
      rfl⟩

/-! ## Claims on `GetKeyName` -/

theorem stringsJoin_cons (a : String) (rest : List String) (sep : String) :
    stringsJoin (a :: rest) sep = rest.foldl (fun b s => b ++ sep ++ s) a := by
  cases rest with
  | nil => rfl
  | cons b rest => rfl

theorem getKeyNameLoop_eq (render : Value → String) (records : List (List (String × Value)))
    (result : List String) :
    sqlDatastoreDialect.getKeyNameLoop render records result =
      result ++ records.map (fun item => AsString render (mapIndex item "name")) := by
  induction records generalizing result with
  | nil => simp [sqlDatastoreDialect.getKeyNameLoop]
  | cons item records ih => simp [sqlDatastoreDialect.getKeyNameLoop, ih]

/-- C6: with an empty key-lookup template `GetKeyName` returns the empty string
and leaves the manager untouched: no call is recorded and its state is the one
before.  The SQLite, PostgreSQL, Oracle and SQL Server variants, as constructed,
are such configurations. -/
theorem GetKeyName_empty_template {σ : Type} (d : sqlDatastoreDialect)
    (render : Value → String) (m : Manager σ) (datastore table : String) (w : World σ)
    (h : d.keySQL = "") :
    d.GetKeyName render m datastore table w = ("", w) ∧
    newSQLLiteDialect.GetKeyName render m datastore table w = ("", w) ∧
    newPgDialect.GetKeyName render m datastore table w = ("", w) ∧
    newOraDialect.GetKeyName render m datastore table w = ("", w) ∧
    newMsSQLDialect.GetKeyName render m datastore table w = ("", w) := by
  refine ⟨?_, ?_, ?_, ?_, ?_⟩
  · simp [sqlDatastoreDialect.GetKeyName, h]
  · rfl
  · rfl
  · rfl
  · rfl

/-- Witness for C6 at the SQLite configuration, whose key template is empty,
with a manager whose every call fails. -/
theorem GetKeyName_empty_template_witness :
    newSQLLiteDialect.DatastoreDialect.keySQL = "" ∧
    (newSQLLiteDialect.DatastoreDialect.GetKeyName (fun _ => "?")
      (scriptedManager (fun _ => some ⟨"down"⟩) [] [] [] [] [] false (some ⟨"down"⟩))
      "db" "users" ⟨0, []⟩).2.calls = [] :=
  ⟨rfl, congrArg (fun r => r.2.calls)
    (GetKeyName_empty_template newSQLLiteDialect.DatastoreDialect (fun _ => "?")
      (scriptedManager (fun _ => some ⟨"down"⟩) [] [] [] [] [] false (some ⟨"down"⟩))
      "db" "users" ⟨0, []⟩ rfl).1⟩

/-- C7: with a non-empty key-lookup template `GetKeyName` makes one `ReadAll`
call with the formatted query and no bound parameter.  If that call returns an
error the result is the empty string; if it succeeds with records whose `name`
entries are the strings `cs`, in row order, the result is `cs` joined with
commas: empty for no record, the name itself for one record, and for more
records the join of all but the last, a comma, and the last name. -/
theorem GetKeyName_nonempty_template {σ : Type} (d : sqlDatastoreDialect)
    (render : Value → String) (m : Manager σ) (datastore table : String) (w : World σ)
    (hk : d.keySQL ≠ "") :
    (d.GetKeyName render m datastore table w).2.calls =
      w.calls ++ [Call.ReadAll (Sprintf d.keySQL [table, datastore]) []] ∧
    (∀ records e s,
      m.ReadAllMaps (Sprintf d.keySQL [table, datastore]) [] w.state = ((records, some e), s) →
      (d.GetKeyName render m datastore table w).1 = "") ∧
    (∀ records cs s,
      m.ReadAllMaps (Sprintf d.keySQL [table, datastore]) [] w.state = ((records, none), s) →
      records.map (fun item => mapIndex item "name") = cs.map Value.str →
      (d.GetKeyName render m datastore table w).1 = stringsJoin cs ",") ∧
    stringsJoin [] "," = "" ∧
    (∀ c, stringsJoin [c] "," = c) ∧
    (∀ cs c, cs ≠ [] → stringsJoin (cs ++ [c]) "," = stringsJoin cs "," ++ "," ++ c) := by
  refine ⟨?_, ?_, ?_, rfl, fun _ => rfl, ?_⟩
  · simp only [sqlDatastoreDialect.GetKeyName, hk, if_false, callReadAllMaps]
    split <;> rfl
  · intro records e s h
    simp [sqlDatastoreDialect.GetKeyName, hk, callReadAllMaps, h]
  · intro records cs s h hcs
    have hmap : records.map (fun item => AsString render (mapIndex item "name")) = cs := by
      have := congrArg (List.map (AsString render)) hcs
      simpa [List.map_map, Function.comp_def, AsString] using this
    simp [sqlDatastoreDialect.GetKeyName, hk, callReadAllMaps, h, getKeyNameLoop_eq, hmap]
  · intro cs c hne
    cases cs with
    | nil => exact absurd rfl hne
    | cons a rest =>
      rw [List.cons_append, stringsJoin_cons, stringsJoin_cons, List.foldl_append]
      rfl

/-- Witness for C7 at the MySQL configuration: a read that fills two records
with the names `id` and `tenant` gives `id,tenant`, and a failing read gives the
empty string. -/
theorem GetKeyName_nonempty_template_witness :
    newMySQLDialect.DatastoreDialect.keySQL ≠ "" ∧
    (newMySQLDialect.DatastoreDialect.GetKeyName (fun _ => "?")
      (scriptedManager (fun _ => none) []
        [[("name", Value.str "id")], [("name", Value.str "tenant")]] [] [] [] false none)
      "db" "users" ⟨0, []⟩).1 = stringsJoin ["id", "tenant"] "," ∧
    (newMySQLDialect.DatastoreDialect.GetKeyName (fun _ => "?")
      (scriptedManager (fun _ => none) []
        [[("name", Value.str "id")]] [] [] [] false (some ⟨"down"⟩))
      "db" "users" ⟨0, []⟩).1 = "" :=
  ⟨by decide,
   (GetKeyName_nonempty_template newMySQLDialect.DatastoreDialect (fun _ => "?")
      (scriptedManager (fun _ => none) []
        [[("name", Value.str "id")], [("name", Value.str "tenant")]] [] [] [] false none)
      "db" "users" ⟨0, []⟩ (by decide)).2.2.1
      [[("name", Value.str "id")], [("name", Value.str "tenant")]] ["id", "tenant"] 1 rfl rfl,
   (GetKeyName_nonempty_template newMySQLDialect.DatastoreDialect (fun _ => "?")
      (scriptedManager (fun _ => none) []
        [[("name", Value.str "id")]] [] [] [] false (some ⟨"down"⟩))
      "db" "users" ⟨0, []⟩ (by decide)).2.1
      [[("name", Value.str "id")]] ⟨"down"⟩ 1 rfl⟩

/-! ## Claims on `GetSequence`, `GetCurrentDatastore` and `GetDatastores` -/

/-- C8: `GetSequence` has three outcomes.  If `ReadSingle` returns an error `e`
the result is `(0, e)`; if it returns no error and `found = false` the result is
`(0, nil)`; if it returns `found = true` with a row whose first value is `v` the
result is `(v, nil)`.  A manager returning the row `[42]` gives `(42, nil)`, one
returning no row gives `(0, nil)`. -/
theorem GetSequence_three_outcomes {σ : Type} (d : sqlDatastoreDialect) (m : Manager σ)
    (name : String) (w : World σ) :
    (∀ row found e s,
      m.ReadSingleInt64 (Sprintf d.sequenceSQL [name]) [] w.state = ((row, found, some e), s) →
      (d.GetSequence m name w).1 = Outcome.returned (0, some e)) ∧
    (∀ row s,
      m.ReadSingleInt64 (Sprintf d.sequenceSQL [name]) [] w.state = ((row, false, none), s) →
      (d.GetSequence m name w).1 = Outcome.returned (0, none)) ∧
    (∀ v rest s,
      m.ReadSingleInt64 (Sprintf d.sequenceSQL [name]) [] w.state
        = ((v :: rest, true, none), s) →
      (d.GetSequence m name w).1 = Outcome.returned (v, none)) ∧
    (newMySQLDialect.DatastoreDialect.GetSequence
      (scriptedManager (fun _ => none) [] [] [] [] [42] true none) "users" ⟨0, []⟩).1
      = Outcome.returned (42, none) ∧
    (newMySQLDialect.DatastoreDialect.GetSequence
      (scriptedManager (fun _ => none) [] [] [] [] [] false none) "users" ⟨0, []⟩).1
      = Outcome.returned (0, none) := by
  refine ⟨?_, ?_, ?_, by decide, by decide⟩
  · intro row found e s h
    simp [sqlDatastoreDialect.GetSequence, callReadSingleInt64, h]
  · intro row s h
    simp [sqlDatastoreDialect.GetSequence, callReadSingleInt64, h]
  · intro v rest s h
    simp [sqlDatastoreDialect.GetSequence, callReadSingleInt64, h, indexSlice]

/-- Witness for C8 at the SQL Server configuration: an error, no row, and the
row `[7, 8]`. -/
theorem GetSequence_three_outcomes_witness :
    (newMsSQLDialect.DatastoreDialect.GetSequence
      (scriptedManager (fun _ => none) [] [] [] [] [7] true (some ⟨"down"⟩)) "seq" ⟨0, []⟩).1
      = Outcome.returned (0, some ⟨"down"⟩) ∧
    (newMsSQLDialect.DatastoreDialect.GetSequence
      (scriptedManager (fun _ => none) [] [] [] [] [] false none) "seq" ⟨0, []⟩).1
      = Outcome.returned (0, none) ∧
    (newMsSQLDialect.DatastoreDialect.GetSequence
      (scriptedManager (fun _ => none) [] [] [] [] [7, 8] true none) "seq" ⟨0, []⟩).1
      = Outcome.returned (7, none) :=
  ⟨(GetSequence_three_outcomes newMsSQLDialect.DatastoreDialect
      (scriptedManager (fun _ => none) [] [] [] [] [7] true (some ⟨"down"⟩)) "seq" ⟨0, []⟩).1
      [7] true ⟨"down"⟩ 1 rfl,
   (GetSequence_three_outcomes newMsSQLDialect.DatastoreDialect
      (scriptedManager (fun _ => none) [] [] [] [] [] false none) "seq" ⟨0, []⟩).2.1
      [] 1 rfl,
   (GetSequence_three_outcomes newMsSQLDialect.DatastoreDialect
      (scriptedManager (fun _ => none) [] [] [] [] [7, 8] true none) "seq" ⟨0, []⟩).2.2.1
      7 [8] 1 rfl⟩

/-- C9: `GetCurrentDatastore` with schema-resultset index `i`.  If `ReadSingle`
returns an error `e` the result is the empty string and `e`; if it returns no
error and `found = false` the result is the empty string and nil; if it returns
`found = true` with a row whose column `i` exists and is the string `s`, the
result is `normalizeName s` and nil.  With index 2 and the row
`[x, y, "main", z]` the result is `main`. -/
theorem GetCurrentDatastore_outcomes {σ : Type} (d : sqlDatastoreDialect)
    (render : Value → String) (m : Manager σ) (w : World σ) (i : Nat)
    (hi : d.schemaResultsetIndex = (i : Int)) :
    (∀ row found e s,
      m.ReadSingleRow d.schemaSQL [] w.state = ((row, found, some e), s) →
      (d.GetCurrentDatastore render m w).1 = Outcome.returned ("", some e)) ∧
    (∀ row s,
      m.ReadSingleRow d.schemaSQL [] w.state = ((row, false, none), s) →
      (d.GetCurrentDatastore render m w).1 = Outcome.returned ("", none)) ∧
    (∀ row name s,
      m.ReadSingleRow d.schemaSQL [] w.state = ((row, true, none), s) →
      i < row.length → row[i]? = some (Value.str name) →
      (d.GetCurrentDatastore render m w).1 = Outcome.returned (normalizeName name, none)) ∧
    (∀ x y z : Value,
      (newSQLLiteDialect.DatastoreDialect.GetCurrentDatastore render
        (scriptedManager (fun _ => none) [] [] [] [x, y, Value.str "main", z] [] true none)
        ⟨0, []⟩).1 = Outcome.returned ("main", none)) := by
  refine ⟨?_, ?_, ?_, ?_⟩
  · intro row found e s h
    simp [sqlDatastoreDialect.GetCurrentDatastore, callReadSingleRow, h]
  · intro row s h
    simp [sqlDatastoreDialect.GetCurrentDatastore, callReadSingleRow, h]
  · intro row name s h _ hrow
    simp [sqlDatastoreDialect.GetCurrentDatastore, callReadSingleRow, h, indexSlice, hi, hrow,
      AsString]
  · intro x y z
    have hn : normalizeName "main" = "main" := by decide
    simp [sqlDatastoreDialect.GetCurrentDatastore, callReadSingleRow, scriptedManager,
      newSQLLiteDialect, NewSQLDatastoreDialect, indexSlice, AsString, hn]

/-- Witness for C9 at the SQLite configuration (index 2): the row
`["0", "main", "/var/db/main.sqlite"]` gives `main.sqlite`. -/
theorem GetCurrentDatastore_outcomes_witness :
    newSQLLiteDialect.DatastoreDialect.schemaResultsetIndex = ((2 : Nat) : Int) ∧
    (newSQLLiteDialect.DatastoreDialect.GetCurrentDatastore (fun _ => "?")
      (scriptedManager (fun _ => none) [] [] []
        [Value.int 0, Value.str "main", Value.str "/var/db/main.sqlite"] [] true none)
      ⟨0, []⟩).1 = Outcome.returned (normalizeName "/var/db/main.sqlite", none) :=
  ⟨rfl,
   (GetCurrentDatastore_outcomes newSQLLiteDialect.DatastoreDialect (fun _ => "?")
      (scriptedManager (fun _ => none) [] [] []
        [Value.int 0, Value.str "main", Value.str "/var/db/main.sqlite"] [] true none)
      ⟨0, []⟩ 2 rfl).2.2.1
      [Value.int 0, Value.str "main", Value.str "/var/db/main.sqlite"] "/var/db/main.sqlite" 1
      rfl (by decide) rfl⟩

theorem getDatastoresLoop_eq (d : sqlDatastoreDialect) (render : Value → String) (i : Nat)
    (hi : d.schemaResultsetIndex = (i : Int)) (rows : List (List Value)) (names : List String)
    (h : rows.map (fun row => row[i]?) = names.map (fun n => some (Value.str n)))
    (result : List String) :
    sqlDatastoreDialect.getDatastoresLoop d render rows result =
      Outcome.returned (result ++ names.map normalizeName) := by
  induction rows generalizing names result with
  | nil =>
    cases names with
    | nil => simp [sqlDatastoreDialect.getDatastoresLoop]
    | cons n names => simp at h
  | cons row rows ih =>
    cases names with
    | nil => simp at h
    | cons n names =>
      simp only [List.map_cons, List.cons.injEq] at h
      simp [sqlDatastoreDialect.getDatastoresLoop, indexSlice, hi, h.1, AsString,
        ih names h.2]

/-- C10: `GetDatastores` with schema-resultset index `i`.  If `ReadAll` succeeds
with rows that all have a column `i` holding a string, the result is the list of
the normalized names of these columns with a nil error, one per row and in row
order, nothing being filtered out; if `ReadAll` returns an error `e`, the
result is the nil list and `e`. -/
theorem GetDatastores_normalizes_every_row {σ : Type} (d : sqlDatastoreDialect)
    (render : Value → String) (m : Manager σ) (w : World σ) (i : Nat)
    (hi : d.schemaResultsetIndex = (i : Int)) :
    (∀ (rows : List (List Value)) (names : List String) (s : σ),
      m.ReadAllRows d.allSchemaSQL [] w.state = ((rows, none), s) →
      rows.map (fun row => row[i]?) = names.map (fun n => some (Value.str n)) →
      (d.GetDatastores render m w).1 = Outcome.returned (some (names.map normalizeName), none) ∧
      (names.map normalizeName).length = rows.length) ∧
    (∀ rows e s,
      m.ReadAllRows d.allSchemaSQL [] w.state = ((rows, some e), s) →
      (d.GetDatastores render m w).1 = Outcome.returned (none, some e)) := by
  refine ⟨?_, ?_⟩
  · intro rows names s h hrows
    refine ⟨?_, ?_⟩
    · simp [sqlDatastoreDialect.GetDatastores, callReadAllRows, h,
        getDatastoresLoop_eq d render i hi rows names hrows]
    · have := congrArg List.length hrows
      simpa using this.symm
  · intro rows e s h
    simp [sqlDatastoreDialect.GetDatastores, callReadAllRows, h]

/-- Witness for C10 at the MySQL configuration (index 0): the rows `/data/shop`,
the empty name and `crm` give `shop`, the empty name and `crm`. -/
theorem GetDatastores_normalizes_every_row_witness :
    newMySQLDialect.DatastoreDialect.schemaResultsetIndex = ((0 : Nat) : Int) ∧
    ((newMySQLDialect.DatastoreDialect.GetDatastores (fun _ => "?")
      (scriptedManager (fun _ => none) [] []
        [[Value.str "/data/shop"], [Value.str ""], [Value.str "crm", Value.int 1]] [] [] false
        none) ⟨0, []⟩).1
      = Outcome.returned (some (["/data/shop", "", "crm"].map normalizeName), none) ∧
     (["/data/shop", "", "crm"].map normalizeName).length = 3) :=
  ⟨rfl,
   (GetDatastores_normalizes_every_row newMySQLDialect.DatastoreDialect (fun _ => "?")
      (scriptedManager (fun _ => none) [] []
        [[Value.str "/data/shop"], [Value.str ""], [Value.str "crm", Value.int 1]] [] [] false
        none) ⟨0, []⟩ 0 rfl).1
      [[Value.str "/data/shop"], [Value.str ""], [Value.str "crm", Value.int 1]]
      ["/data/shop", "", "crm"] 1 rfl rfl⟩

/-! ## Claims on statement texts, bound parameters and capability flags -/

/-- Two statements that differ within the first `n` characters of their fixed
heads differ whatever is appended to the heads. -/
theorem append_ne_of_head_ne (a b s x : String) (n : Nat) (ha : n ≤ a.data.length)
    (hb : n ≤ b.data.length) (h : a.data.take n ≠ b.data.take n) : a ++ s ≠ b ++ x := by
  intro heq
  have hd := congrArg (fun t : String => t.data.take n) heq
  simp only [String.data_append, List.take_append_of_le_length ha,
    List.take_append_of_le_length hb] at hd
  exact h hd

/-- C11: `GetTables` passes the datastore as a bound parameter and never puts
it into the SQL text: for any two datastore names the one `ReadAll` call made
has the configured `tablesSQL` as its query, the same for both, and the
one-element parameter list holding the datastore name. -/
theorem GetTables_binds_datastore {σ : Type} (d : sqlDatastoreDialect) (m : Manager σ)
    (d1 d2 : String) (w : World σ) :
    (d.GetTables m d1 w).2.calls = w.calls ++ [Call.ReadAll d.tablesSQL [Value.str d1]] ∧
    (d.GetTables m d2 w).2.calls = w.calls ++ [Call.ReadAll d.tablesSQL [Value.str d2]] := by
  constructor <;>
  · simp only [sqlDatastoreDialect.GetTables, callReadAllRecords]
    split <;> rfl

/-- C12: the foreign-key toggles.  With an empty statement the operation returns
nil and leaves the manager untouched, which is the case of the SQLite,
PostgreSQL, Oracle and SQL Server variants; with a non-empty statement it makes
one `Execute` call with that statement and returns the error `Execute` gave.
MySQL executes `SET FOREIGN_KEY_CHECKS=0` to disable and
`SET FOREIGN_KEY_CHECKS=1` to enable. -/
theorem foreignKeyCheck_toggles {σ : Type} (d : sqlDatastoreDialect) (m : Manager σ)
    (w : World σ) :
    (d.disableForeignKeyCheck = "" → d.DisableForeignKeyCheck m w = (none, w)) ∧
    (d.enableForeignKeyCheck = "" → d.EnableForeignKeyCheck m w = (none, w)) ∧
    (d.disableForeignKeyCheck ≠ "" →
      (d.DisableForeignKeyCheck m w).1 = (m.Execute d.disableForeignKeyCheck w.state).1 ∧
      (d.DisableForeignKeyCheck m w).2.calls =
        w.calls ++ [Call.Execute d.disableForeignKeyCheck]) ∧
    (d.enableForeignKeyCheck ≠ "" →
      (d.EnableForeignKeyCheck m w).1 = (m.Execute d.enableForeignKeyCheck w.state).1 ∧
      (d.EnableForeignKeyCheck m w).2.calls =
        w.calls ++ [Call.Execute d.enableForeignKeyCheck]) ∧
    (newSQLLiteDialect.DisableForeignKeyCheck m w = (none, w) ∧
      newSQLLiteDialect.EnableForeignKeyCheck m w = (none, w) ∧
      newPgDialect.DisableForeignKeyCheck m w = (none, w) ∧
      newPgDialect.EnableForeignKeyCheck m w = (none, w) ∧
      newOraDialect.DisableForeignKeyCheck m w = (none, w) ∧
      newOraDialect.EnableForeignKeyCheck m w = (none, w) ∧
      newMsSQLDialect.DisableForeignKeyCheck m w = (none, w) ∧
      newMsSQLDialect.EnableForeignKeyCheck m w = (none, w)) ∧
    ((newMySQLDialect.DisableForeignKeyCheck m w).1
        = (m.Execute "SET FOREIGN_KEY_CHECKS=0" w.state).1 ∧
      (newMySQLDialect.DisableForeignKeyCheck m w).2.calls
        = w.calls ++ [Call.Execute "SET FOREIGN_KEY_CHECKS=0"] ∧
      (newMySQLDialect.EnableForeignKeyCheck m w).1
        = (m.Execute "SET FOREIGN_KEY_CHECKS=1" w.state).1 ∧
      (newMySQLDialect.EnableForeignKeyCheck m w).2.calls
        = w.calls ++ [Call.Execute "SET FOREIGN_KEY_CHECKS=1"]) := by
  refine ⟨?_, ?_, ?_, ?_, ⟨rfl, rfl, rfl, rfl, rfl, rfl, rfl, rfl⟩, ⟨rfl, rfl, rfl, rfl⟩⟩
  · intro h
    simp [sqlDatastoreDialect.DisableForeignKeyCheck, h]
  · intro h
    simp [sqlDatastoreDialect.EnableForeignKeyCheck, h]
  · intro h
    simp [sqlDatastoreDialect.DisableForeignKeyCheck, h, callExecute]
  · intro h
    simp [sqlDatastoreDialect.EnableForeignKeyCheck, h, callExecute]

/-- Witness for C12: the SQLite configuration (empty statements) with a manager
whose every call fails, and the MySQL configuration (non-empty statements) with
a manager whose `Execute` fails. -/
theorem foreignKeyCheck_toggles_witness :
    (newSQLLiteDialect.DatastoreDialect.DisableForeignKeyCheck
      (scriptedManager (fun _ => some ⟨"down"⟩) [] [] [] [] [] false (some ⟨"down"⟩))
      ⟨0, []⟩).2.calls = [] ∧
    (newSQLLiteDialect.DatastoreDialect.EnableForeignKeyCheck
      (scriptedManager (fun _ => some ⟨"down"⟩) [] [] [] [] [] false (some ⟨"down"⟩))
      ⟨0, []⟩).2.calls = [] ∧
    (newMySQLDialect.DatastoreDialect.DisableForeignKeyCheck
      (scriptedManager (fun _ => some ⟨"denied"⟩) [] [] [] [] [] false none)
      ⟨0, []⟩).1 = some ⟨"denied"⟩ ∧
    (newMySQLDialect.DatastoreDialect.EnableForeignKeyCheck
      (scriptedManager (fun _ => some ⟨"denied"⟩) [] [] [] [] [] false none)
      ⟨0, []⟩).2.calls = [] ++ [Call.Execute "SET FOREIGN_KEY_CHECKS=1"] :=
  ⟨congrArg (fun r => r.2.calls)
    ((foreignKeyCheck_toggles newSQLLiteDialect.DatastoreDialect
      (scriptedManager (fun _ => some ⟨"down"⟩) [] [] [] [] [] false (some ⟨"down"⟩))
      ⟨0, []⟩).1 rfl),
   congrArg (fun r => r.2.calls)
    ((foreignKeyCheck_toggles newSQLLiteDialect.DatastoreDialect
      (scriptedManager (fun _ => some ⟨"down"⟩) [] [] [] [] [] false (some ⟨"down"⟩))
      ⟨0, []⟩).2.1 rfl),
   ((foreignKeyCheck_toggles newMySQLDialect.DatastoreDialect
      (scriptedManager (fun _ => some ⟨"denied"⟩) [] [] [] [] [] false none)
      ⟨0, []⟩).2.2.1 (by decide)).1,
   ((foreignKeyCheck_toggles newMySQLDialect.DatastoreDialect
      (scriptedManager (fun _ => some ⟨"denied"⟩) [] [] [] [] [] false none)
      ⟨0, []⟩).2.2.2.1 (by decide)).2⟩

/-- C13: for every datastore name `s`, Oracle's `CreateDatastore` makes one
`Execute` call, with `CREATE SCHEMA IF NOT EXISTS ` followed by `s`, and Oracle's
`DropDatastore` makes one `Execute` call, with `DROP SCHEMA ` followed by `s`;
each returns the error `Execute` gave.  Neither statement is a
`CREATE DATABASE ...` or `DROP DATABASE ...` statement, whatever the names.  For
`shop` the statements are `CREATE SCHEMA IF NOT EXISTS shop` and
`DROP SCHEMA shop`. -/
theorem ora_datastore_uses_schema_syntax {σ : Type} (d : oraDialect) (m : Manager σ)
    (s : String) (w : World σ) :
    ((d.CreateDatastore m s w).2.calls
        = w.calls ++ [Call.Execute ("CREATE SCHEMA IF NOT EXISTS " ++ s)] ∧
      (d.CreateDatastore m s w).1
        = (m.Execute ("CREATE SCHEMA IF NOT EXISTS " ++ s) w.state).1) ∧
    ((d.DropDatastore m s w).2.calls = w.calls ++ [Call.Execute ("DROP SCHEMA " ++ s)] ∧
      (d.DropDatastore m s w).1 = (m.Execute ("DROP SCHEMA " ++ s) w.state).1) ∧
    (∀ x y : String,
      "CREATE SCHEMA IF NOT EXISTS " ++ s ≠ "CREATE DATABASE " ++ x ∧
      "CREATE SCHEMA IF NOT EXISTS " ++ s ≠ "DROP DATABASE " ++ y ∧
      "DROP SCHEMA " ++ s ≠ "DROP DATABASE " ++ y ∧
      "DROP SCHEMA " ++ s ≠ "CREATE DATABASE " ++ x) ∧
    "CREATE SCHEMA IF NOT EXISTS " ++ "shop" = "CREATE SCHEMA IF NOT EXISTS shop" ∧
    "DROP SCHEMA " ++ "shop" = "DROP SCHEMA shop" := by
  refine ⟨⟨rfl, rfl⟩, ⟨rfl, rfl⟩, ?_, by decide, by decide⟩
  intro x y
  exact ⟨append_ne_of_head_ne _ _ s x 8 (by decide) (by decide) (by decide),
    append_ne_of_head_ne _ _ s y 1 (by decide) (by decide) (by decide),
    append_ne_of_head_ne _ _ s y 6 (by decide) (by decide) (by decide),
    append_ne_of_head_ne _ _ s x 1 (by decide) (by decide) (by decide)⟩

/-- C14: for MySQL, PostgreSQL and SQL Server, which do not override it,
`CreateDatastore` makes one `Execute` call with `CREATE DATABASE ` followed by
the datastore name and returns the error `Execute` gave, nil when it gave none.
For `shop` the statement is `CREATE DATABASE shop`. -/
theorem default_CreateDatastore_statement {σ : Type} (m : Manager σ) (s : String)
    (w : World σ) :
    ((newMySQLDialect.CreateDatastore m s w).2.calls
        = w.calls ++ [Call.Execute ("CREATE DATABASE " ++ s)] ∧
      (newMySQLDialect.CreateDatastore m s w).1
        = (m.Execute ("CREATE DATABASE " ++ s) w.state).1) ∧
    ((newPgDialect.CreateDatastore m s w).2.calls
        = w.calls ++ [Call.Execute ("CREATE DATABASE " ++ s)] ∧
      (newPgDialect.CreateDatastore m s w).1
        = (m.Execute ("CREATE DATABASE " ++ s) w.state).1) ∧
    ((newMsSQLDialect.CreateDatastore m s w).2.calls
        = w.calls ++ [Call.Execute ("CREATE DATABASE " ++ s)] ∧
      (newMsSQLDialect.CreateDatastore m s w).1
        = (m.Execute ("CREATE DATABASE " ++ s) w.state).1) ∧
    "CREATE DATABASE " ++ "shop" = "CREATE DATABASE shop" :=
  ⟨⟨rfl, rfl⟩, ⟨rfl, rfl⟩, ⟨rfl, rfl⟩, by decide⟩

/-- C15: SQLite's `CreateDatastore` does nothing: for every manager and every
datastore name it returns nil and hands back the manager state and the call
record as they were, also with a manager whose every call fails. -/
theorem sqlLite_CreateDatastore_noop {σ : Type} (d : sqlLiteDialect) (m : Manager σ)
    (datastore : String) (w : World σ) :
    d.CreateDatastore m datastore w = (none, w) ∧
    (newSQLLiteDialect.CreateDatastore
      (scriptedManager (fun _ => some ⟨"down"⟩) [] [] [] [] [] false (some ⟨"down"⟩))
      datastore ⟨0, []⟩).1 = none ∧
    (newSQLLiteDialect.CreateDatastore
      (scriptedManager (fun _ => some ⟨"down"⟩) [] [] [] [] [] false (some ⟨"down"⟩))
      datastore ⟨0, []⟩).2.calls = [] :=
  ⟨rfl, rfl, rfl⟩

/-- C16: for each of the five variants as constructed and every manager,
`CanCreateDatastore` and `CanDropDatastore` are true and `CanPersistBatch` is
false. -/
theorem capability_flags {σ : Type} (m : Manager σ) :
    (newMySQLDialect.CanCreateDatastore m = true ∧ newMySQLDialect.CanDropDatastore m = true ∧
      newMySQLDialect.CanPersistBatch = false) ∧
    (newSQLLiteDialect.CanCreateDatastore m = true ∧
      newSQLLiteDialect.CanDropDatastore m = true ∧
      newSQLLiteDialect.CanPersistBatch = false) ∧
    (newPgDialect.CanCreateDatastore m = true ∧ newPgDialect.CanDropDatastore m = true ∧
      newPgDialect.CanPersistBatch = false) ∧
    (newOraDialect.CanCreateDatastore m = true ∧ newOraDialect.CanDropDatastore m = true ∧
      newOraDialect.CanPersistBatch = false) ∧
    (newMsSQLDialect.CanCreateDatastore m = true ∧ newMsSQLDialect.CanDropDatastore m = true ∧
      newMsSQLDialect.CanPersistBatch = false) :=
  ⟨⟨rfl, rfl, rfl⟩, ⟨rfl, rfl, rfl⟩, ⟨rfl, rfl, rfl⟩, ⟨rfl, rfl, rfl⟩, ⟨rfl, rfl, rfl⟩⟩

/-! ## Lemmas on `Sprintf` -/

theorem sprintfChars_cons_of_ne (c : Char) (hc : c ≠ '%') (rest : List Char)
    (args : List String) :
    sprintfChars (c :: rest) args = c :: sprintfChars rest args := by
  cases rest with
  | nil => simp [sprintfChars, hc]
  | cons v rest => simp [sprintfChars, hc]

/-- Text without a percent sign is copied as it is. -/
theorem sprintfChars_plain (l : List Char) (hl : '%' ∉ l) (rest : List Char)
    (args : List String) :
    sprintfChars (l ++ rest) args = l ++ sprintfChars rest args := by
  induction l with
  | nil => rfl
  | cons c l ih =>
    have hc : c ≠ '%' := fun h => hl (by simp [h])
    have hl2 : '%' ∉ l := fun h => hl (List.mem_cons_of_mem c h)
    rw [List.cons_append, sprintfChars_cons_of_ne c hc, ih hl2, List.cons_append]

/-- The verb `%v` is replaced by the next operand, as it is. -/
theorem sprintfChars_verb_v (rest : List Char) (a : String) (args : List String) :
    sprintfChars ('%' :: 'v' :: rest) (a :: args) = a.data ++ sprintfChars rest args := by
  simp [sprintfChars]

/-- A template made of three texts without a percent sign around two `%v` verbs
is filled with the first operand at the first verb and the second operand at
the second verb. -/
theorem Sprintf_two_verbs (pre mid post a b : String) (hpre : '%' ∉ pre.data)
    (hmid : '%' ∉ mid.data) (hpost : '%' ∉ post.data) :
    Sprintf (pre ++ "%v" ++ mid ++ "%v" ++ post) [a, b] = pre ++ a ++ mid ++ b ++ post := by
  have hsplit : (pre ++ "%v" ++ mid ++ "%v" ++ post).data =
      pre.data ++ ('%' :: 'v' :: (mid.data ++ ('%' :: 'v' :: (post.data ++ [])))) := by
    have hv : "%v".data = ['%', 'v'] := rfl
    simp [String.data_append, hv]
  apply String.ext
  simp only [Sprintf, hsplit]
  rw [sprintfChars_plain _ hpre, sprintfChars_verb_v, sprintfChars_plain _ hmid,
    sprintfChars_verb_v, sprintfChars_plain _ hpost]
  simp [sprintfChars, String.data_append, List.append_assoc]

/-- With a non-empty key template `GetKeyName` makes the one `ReadAll` call with
the formatted template and no bound parameter. -/
theorem GetKeyName_calls {σ : Type} (d : sqlDatastoreDialect) (render : Value → String)
    (m : Manager σ) (datastore table : String) (w : World σ) (hk : d.keySQL ≠ "") :
    (d.GetKeyName render m datastore table w).2.calls =
      w.calls ++ [Call.ReadAll (Sprintf d.keySQL [table, datastore]) []] := by
  simp only [sqlDatastoreDialect.GetKeyName, hk, if_false, callReadAllMaps]
  split <;> rfl

/-! ## Claims on query formatting and on index range -/

/-- C17: `GetKeyName` fills the table into the first placeholder of the key
template and the datastore into the second, as text and with an empty list of
bound parameters.  For the MySQL variant and every datastore `ds` and table
`t` the one `ReadAll` call has the query
`SELECT column_name AS name FROM information_schema.key_column_usage WHERE
table_name = 't' AND table_schema = 'ds' AND constraint_name='PRIMARY'` with `t`
and `ds` as they are, and no bound parameter. -/
theorem GetKeyName_fills_table_then_datastore {σ : Type} (render : Value → String)
    (m : Manager σ) (ds t : String) (w : World σ) :
    (∀ (d : sqlDatastoreDialect) (pre mid post : String),
      '%' ∉ pre.data → '%' ∉ mid.data → '%' ∉ post.data →
      d.keySQL = pre ++ "%v" ++ mid ++ "%v" ++ post →
      (d.GetKeyName render m ds t w).2.calls =
        w.calls ++ [Call.ReadAll (pre ++ t ++ mid ++ ds ++ post) []]) ∧
    (newMySQLDialect.GetKeyName render m ds t w).2.calls =
      w.calls ++ [Call.ReadAll
        ("SELECT column_name AS name FROM information_schema.key_column_usage WHERE table_name = '"
          ++ t ++ "' AND table_schema = '" ++ ds ++ "' AND constraint_name='PRIMARY'") []] := by
  have hgen : ∀ (d : sqlDatastoreDialect) (pre mid post : String),
      '%' ∉ pre.data → '%' ∉ mid.data → '%' ∉ post.data →
      d.keySQL = pre ++ "%v" ++ mid ++ "%v" ++ post →
      (d.GetKeyName render m ds t w).2.calls =
        w.calls ++ [Call.ReadAll (pre ++ t ++ mid ++ ds ++ post) []] := by
    intro d pre mid post hpre hmid hpost hkey
    have hk : d.keySQL ≠ "" := by
      rw [hkey]
      intro h
      have hd := congrArg String.data h
      have hv : "%v".data = ['%', 'v'] := rfl
      have he : "".data = [] := rfl
      simp [String.data_append, hv, he] at hd
    rw [GetKeyName_calls d render m ds t w hk, hkey, Sprintf_two_verbs pre mid post t ds hpre
      hmid hpost]
  refine ⟨hgen, ?_⟩
  exact hgen newMySQLDialect.DatastoreDialect
    "SELECT column_name AS name FROM information_schema.key_column_usage WHERE table_name = '"
    "' AND table_schema = '" "' AND constraint_name='PRIMARY'"
    (by decide) (by decide) (by decide) (by decide)

/-- Witness for C17: the MySQL template split at its two verbs, table `users`
and datastore `shop`. -/
theorem GetKeyName_fills_table_then_datastore_witness :
    (newMySQLDialect.DatastoreDialect.GetKeyName (fun _ => "?")
      (scriptedManager (fun _ => none) [] [] [] [] [] false none) "shop" "users" ⟨0, []⟩).2.calls
      = [] ++ [Call.ReadAll
        ("SELECT column_name AS name FROM information_schema.key_column_usage WHERE table_name = '"
          ++ "users" ++ "' AND table_schema = '" ++ "shop" ++ "' AND constraint_name='PRIMARY'")
        []] :=
  (GetKeyName_fills_table_then_datastore (fun _ => "?")
    (scriptedManager (fun _ => none) [] [] [] [] [] false none) "shop" "users" ⟨0, []⟩).1
    newMySQLDialect.DatastoreDialect
    "SELECT column_name AS name FROM information_schema.key_column_usage WHERE table_name = '"
    "' AND table_schema = '" "' AND constraint_name='PRIMARY'"
    (by decide) (by decide) (by decide) (by decide)

theorem indexSlice_natCast {α : Type} (row : List α) (i : Nat) :
    indexSlice row (i : Int) = row[i]? := by
  simp [indexSlice]

/-- The loop of `GetDatastores` runs to its end exactly when every row has a
column at the index. -/
theorem getDatastoresLoop_returns_iff (d : sqlDatastoreDialect) (render : Value → String)
    (i : Nat) (hi : d.schemaResultsetIndex = (i : Int)) (rows : List (List Value))
    (result : List String) :
    (∃ l, sqlDatastoreDialect.getDatastoresLoop d render rows result = Outcome.returned l) ↔
      ∀ row ∈ rows, i < row.length := by
  induction rows generalizing result with
  | nil => simp [sqlDatastoreDialect.getDatastoresLoop]
  | cons row rows ih =>
    by_cases hlt : i < row.length
    · have hget : indexSlice row d.schemaResultsetIndex = some row[i] := by
        rw [hi, indexSlice_natCast, List.getElem?_eq_getElem hlt]
      simp only [sqlDatastoreDialect.getDatastoresLoop, hget, ih, List.mem_cons, forall_eq_or_imp,
        hlt, true_and]
    · have hget : indexSlice row d.schemaResultsetIndex = none := by
        rw [hi, indexSlice_natCast, List.getElem?_eq_none (Nat.le_of_not_lt hlt)]
      simp [sqlDatastoreDialect.getDatastoresLoop, hget, hlt]

/-- C18: with a schema-resultset index `i` (not negative), `GetCurrentDatastore`
on a found row and `GetDatastores` on a successful read return, rather than
stop with an index out of range, exactly when every row the manager handed
back has more than `i` columns; `GetSequence` on a found row returns exactly
when that row is not empty.  For the SQLite variant (index 2) a found row of
fewer than 3 columns ends in the panic. -/
theorem index_in_range_iff_row_long_enough {σ : Type} (d : sqlDatastoreDialect)
    (render : Value → String) (m : Manager σ) (name : String) (w : World σ) (i : Nat)
    (hi : d.schemaResultsetIndex = (i : Int)) :
    (∀ row s, m.ReadSingleRow d.schemaSQL [] w.state = ((row, true, none), s) →
      ((∃ r, (d.GetCurrentDatastore render m w).1 = Outcome.returned r) ↔ i < row.length)) ∧
    (∀ rows s, m.ReadAllRows d.allSchemaSQL [] w.state = ((rows, none), s) →
      ((∃ r, (d.GetDatastores render m w).1 = Outcome.returned r) ↔
        ∀ row ∈ rows, i < row.length)) ∧
    (∀ row s,
      m.ReadSingleInt64 (Sprintf d.sequenceSQL [name]) [] w.state = ((row, true, none), s) →
      ((∃ r, (d.GetSequence m name w).1 = Outcome.returned r) ↔ row ≠ [])) ∧
    (∀ row s, m.ReadSingleRow sqlLightSchemaSQL [] w.state = ((row, true, none), s) →
      row.length < 3 →
      (newSQLLiteDialect.GetCurrentDatastore render m w).1 = Outcome.panicked) := by
  refine ⟨?_, ?_, ?_, ?_⟩
  · intro row s h
    by_cases hlt : i < row.length
    · have hget : indexSlice row d.schemaResultsetIndex = some row[i] := by
        rw [hi, indexSlice_natCast, List.getElem?_eq_getElem hlt]
      simp [sqlDatastoreDialect.GetCurrentDatastore, callReadSingleRow, h, hget, hlt]
    · have hget : indexSlice row d.schemaResultsetIndex = none := by
        rw [hi, indexSlice_natCast, List.getElem?_eq_none (Nat.le_of_not_lt hlt)]
      simp [sqlDatastoreDialect.GetCurrentDatastore, callReadSingleRow, h, hget, hlt]
  · intro rows s h
    rw [← getDatastoresLoop_returns_iff d render i hi rows []]
    simp only [sqlDatastoreDialect.GetDatastores, callReadAllRows, h]
    cases sqlDatastoreDialect.getDatastoresLoop d render rows [] with
    | returned l => simp
    | panicked => simp
  · intro row s h
    cases row with
    | nil => simp [sqlDatastoreDialect.GetSequence, callReadSingleInt64, h, indexSlice]
    | cons v rest => simp [sqlDatastoreDialect.GetSequence, callReadSingleInt64, h, indexSlice]
  · intro row s h hlen
    have hget : indexSlice row (2 : Int) = none := by
      have := indexSlice_natCast row 2
      rw [List.getElem?_eq_none (by omega)] at this
      exact this
    have h2 : m.ReadSingleRow newSQLLiteDialect.DatastoreDialect.schemaSQL [] w.state
        = ((row, true, none), s) := h
    have hidx : newSQLLiteDialect.DatastoreDialect.schemaResultsetIndex = 2 := rfl
    simp [sqlLiteDialect.GetCurrentDatastore, sqlDatastoreDialect.GetCurrentDatastore,
      callReadSingleRow, h2, hidx, hget]

/-- Witness for C18 at the SQLite configuration (index 2): a found row of two
columns, a read of one long and one short row, a found empty sequence row, and
the two-column row again for the panic. -/
theorem index_in_range_iff_row_long_enough_witness :
    newSQLLiteDialect.DatastoreDialect.schemaResultsetIndex = ((2 : Nat) : Int) ∧
    ((∃ r, (newSQLLiteDialect.DatastoreDialect.GetCurrentDatastore (fun _ => "?")
        (scriptedManager (fun _ => none) [] []
          [[Value.int 0, Value.str "main", Value.str "/db"], [Value.int 1]]
          [Value.int 0, Value.str "main"] [] true none) ⟨0, []⟩).1 = Outcome.returned r) ↔
      2 < [Value.int 0, Value.str "main"].length) ∧
    ((∃ r, (newSQLLiteDialect.DatastoreDialect.GetDatastores (fun _ => "?")
        (scriptedManager (fun _ => none) [] []
          [[Value.int 0, Value.str "main", Value.str "/db"], [Value.int 1]]
          [Value.int 0, Value.str "main"] [] true none) ⟨0, []⟩).1 = Outcome.returned r) ↔
      ∀ row ∈ [[Value.int 0, Value.str "main", Value.str "/db"], [Value.int 1]],
        2 < row.length) ∧
    ((∃ r, (newSQLLiteDialect.DatastoreDialect.GetSequence
        (scriptedManager (fun _ => none) [] []
          [[Value.int 0, Value.str "main", Value.str "/db"], [Value.int 1]]
          [Value.int 0, Value.str "main"] [] true none) "users" ⟨0, []⟩).1
          = Outcome.returned r) ↔
      ([] : List Int) ≠ []) ∧
    (newSQLLiteDialect.GetCurrentDatastore (fun _ => "?")
        (scriptedManager (fun _ => none) [] []
          [[Value.int 0, Value.str "main", Value.str "/db"], [Value.int 1]]
          [Value.int 0, Value.str "main"] [] true none) ⟨0, []⟩).1 = Outcome.panicked :=
  ⟨rfl,
   (index_in_range_iff_row_long_enough newSQLLiteDialect.DatastoreDialect (fun _ => "?")
      (scriptedManager (fun _ => none) [] []
        [[Value.int 0, Value.str "main", Value.str "/db"], [Value.int 1]]
        [Value.int 0, Value.str "main"] [] true none) "users" ⟨0, []⟩ 2 rfl).1
      [Value.int 0, Value.str "main"] 1 rfl,
   (index_in_range_iff_row_long_enough newSQLLiteDialect.DatastoreDialect (fun _ => "?")
      (scriptedManager (fun _ => none) [] []
        [[Value.int 0, Value.str "main", Value.str "/db"], [Value.int 1]]
        [Value.int 0, Value.str "main"] [] true none) "users" ⟨0, []⟩ 2 rfl).2.1
      [[Value.int 0, Value.str "main", Value.str "/db"], [Value.int 1]] 1 rfl,
   (index_in_range_iff_row_long_enough newSQLLiteDialect.DatastoreDialect (fun _ => "?")
      (scriptedManager (fun _ => none) [] []
        [[Value.int 0, Value.str "main", Value.str "/db"], [Value.int 1]]
        [Value.int 0, Value.str "main"] [] true none) "users" ⟨0, []⟩ 2 rfl).2.2.1
      [] 1 rfl,
   (index_in_range_iff_row_long_enough newSQLLiteDialect.DatastoreDialect (fun _ => "?")
      (scriptedManager (fun _ => none) [] []
        [[Value.int 0, Value.str "main", Value.str "/db"], [Value.int 1]]
        [Value.int 0, Value.str "main"] [] true none) "users" ⟨0, []⟩ 2 rfl).2.2.2
      [Value.int 0, Value.str "main"] 1 rfl (by decide)⟩

/-! ## Claims on the extent of SQLite's `DropDatastore` and on normalized names -/

/-- Whatever the manager answers, the drop loop issues the drops of some initial
stretch of the tables and nothing else. -/
theorem dropDatastoreLoop_calls {σ : Type} (d : sqlLiteDialect) (m : Manager σ)
    (datastore : String) (err : Option GoError) (ts : List String) (w : World σ) :
    ∃ k, k ≤ ts.length ∧
      (d.dropDatastoreLoop m datastore err ts w).2.calls =
        w.calls ++ ((ts.take k).map (fun t => "DROP TABLE " ++ t)).map Call.Execute := by
  induction ts generalizing w with
  | nil => exact ⟨0, Nat.le_refl _, by simp [sqlLiteDialect.dropDatastoreLoop]⟩
  | cons t ts ih =>
    cases hx : (m.Execute ("DROP TABLE " ++ t) w.state).1 with
    | some e =>
      refine ⟨1, by simp, ?_⟩
      simp [sqlLiteDialect.dropDatastoreLoop, sqlLiteDialect.DropTable,
        sqlDatastoreDialect.DropTable, callExecute, hx]
    | none =>
      obtain ⟨k, hk, hcalls⟩ := ih ⟨(m.Execute ("DROP TABLE " ++ t) w.state).2,
        w.calls ++ [Call.Execute ("DROP TABLE " ++ t)]⟩
      refine ⟨k + 1, by simpa using hk, ?_⟩
      simp only [sqlLiteDialect.dropDatastoreLoop, sqlLiteDialect.DropTable,
        sqlDatastoreDialect.DropTable, callExecute, hx]
      simpa using hcalls

theorem countP_isExecute_map (sqls : List String) :
    (sqls.map Call.Execute).countP Call.isExecute = sqls.length := by
  induction sqls with
  | nil => rfl
  | cons q qs ih => simp [List.countP_cons, Call.isExecute, ih]

/-- C19: SQLite's `DropDatastore` after a listing `ReadAll` that answered
`(rows, err)`.  The calls it makes are the listing followed by the statements
`issued`, each an `Execute`; these are `DROP TABLE t` for an initial stretch of
the non-empty names listed, so there are at most as many `Execute` calls as
such names and none is a `DROP DATABASE ...`.  If the listing failed with `e`
the result is `e` and nothing is executed; if it succeeded with no non-empty
name the result is nil and nothing is executed. -/
theorem sqlLite_DropDatastore_extent {σ : Type} (d : sqlLiteDialect) (m : Manager σ)
    (datastore : String) (w : World σ) (rows : List nameRecord) (err : Option GoError) (s : σ)
    (hread : m.ReadAllRecords d.DatastoreDialect.tablesSQL [Value.str datastore] w.state
      = ((rows, err), s)) :
    ∃ issued : List String,
      (d.DropDatastore m datastore w).2.calls =
        w.calls ++ Call.ReadAll d.DatastoreDialect.tablesSQL [Value.str datastore]
          :: issued.map Call.Execute ∧
      (d.DropDatastore m datastore w).2.calls.countP Call.isExecute
        = w.calls.countP Call.isExecute + issued.length ∧
      issued.length ≤
        ((rows.map (fun row => row.Name)).filter (fun n => decide (n ≠ ""))).length ∧
      (∃ k, issued =
        ((((rows.map (fun row => row.Name)).filter (fun n => decide (n ≠ ""))).take k).map
          (fun t => "DROP TABLE " ++ t))) ∧
      (∀ x, "DROP DATABASE " ++ x ∉ issued) ∧
      (∀ e, err = some e → (d.DropDatastore m datastore w).1 = some e ∧ issued = []) ∧
      (err = none →
        (rows.map (fun row => row.Name)).filter (fun n => decide (n ≠ "")) = [] →
        (d.DropDatastore m datastore w).1 = none ∧ issued = []) := by
  have hcount : ∀ issued : List String,
      (w.calls ++ Call.ReadAll d.DatastoreDialect.tablesSQL [Value.str datastore]
          :: issued.map Call.Execute).countP Call.isExecute
        = w.calls.countP Call.isExecute + issued.length := by
    intro issued
    rw [List.countP_append, List.countP_cons, countP_isExecute_map]
    simp [Call.isExecute]
  have hnodb : ∀ (names : List String) (x : String),
      "DROP DATABASE " ++ x ∉ names.map (fun t => "DROP TABLE " ++ t) := by
    intro names x hmem
    obtain ⟨t, _, ht⟩ := List.mem_map.mp hmem
    exact append_ne_of_head_ne "DROP TABLE " "DROP DATABASE " t x 6 (by decide) (by decide)
      (by decide) ht
  cases err with
  | some e =>
    have hrun : d.DropDatastore m datastore w =
        (some e, ⟨s, w.calls ++ [Call.ReadAll d.DatastoreDialect.tablesSQL
          [Value.str datastore]]⟩) := by
      simp [sqlLiteDialect.DropDatastore, sqlLiteDialect.GetTables,
        sqlDatastoreDialect.GetTables, callReadAllRecords, hread]
    refine ⟨[], ?_, ?_, Nat.zero_le _, ⟨0, by simp⟩, by simp, ?_, ?_⟩
    · rw [hrun]; rfl
    · rw [hrun]; exact hcount []
    · intro e' he
      rw [hrun]
      exact ⟨by simpa using he, rfl⟩
    · intro he
      exact Option.noConfusion he
  | none =>
    have hrun : d.DropDatastore m datastore w =
        d.dropDatastoreLoop m datastore none
          ((rows.map (fun row => row.Name)).filter (fun n => decide (n ≠ "")))
          ⟨s, w.calls ++ [Call.ReadAll d.DatastoreDialect.tablesSQL [Value.str datastore]]⟩ := by
      simp [sqlLiteDialect.DropDatastore, sqlLiteDialect.GetTables,
        sqlDatastoreDialect.GetTables, callReadAllRecords, hread, getTablesLoop_eq]
    obtain ⟨k, hk, hcalls⟩ := dropDatastoreLoop_calls d m datastore none
      ((rows.map (fun row => row.Name)).filter (fun n => decide (n ≠ "")))
      ⟨s, w.calls ++ [Call.ReadAll d.DatastoreDialect.tablesSQL [Value.str datastore]]⟩
    have hcalls2 : (d.DropDatastore m datastore w).2.calls =
        w.calls ++ Call.ReadAll d.DatastoreDialect.tablesSQL [Value.str datastore]
          :: ((((rows.map (fun row => row.Name)).filter (fun n => decide (n ≠ ""))).take k).map
            (fun t => "DROP TABLE " ++ t)).map Call.Execute := by
      rw [hrun, hcalls]
      simp
    refine ⟨_, hcalls2, ?_, ?_, ⟨k, rfl⟩, fun x => hnodb _ x, ?_, ?_⟩
    · rw [hcalls2]; exact hcount _
    · rw [List.length_map, List.length_take]
      exact Nat.min_le_right _ _
    · intro e he
      exact Option.noConfusion he
    · intro _ hnil
      rw [hrun, hnil]
      exact ⟨rfl, by simp⟩

/-- Witness for C19: a listing of `t1`, an empty name and `t2` whose first drop
fails. -/
theorem sqlLite_DropDatastore_extent_witness :
    ∃ issued : List String,
      (newSQLLiteDialect.DropDatastore
        (scriptedManager (fun k => if k = 1 then some ⟨"locked"⟩ else none)
          [⟨"t1"⟩, ⟨""⟩, ⟨"t2"⟩] [] [] [] [] false none) "db" ⟨0, []⟩).2.calls =
        [] ++ Call.ReadAll sqlLightTableSQL [Value.str "db"] :: issued.map Call.Execute ∧
      issued.length ≤ 2 :=
  (sqlLite_DropDatastore_extent newSQLLiteDialect
      (scriptedManager (fun k => if k = 1 then some ⟨"locked"⟩ else none)
        [⟨"t1"⟩, ⟨""⟩, ⟨"t2"⟩] [] [] [] [] false none) "db" ⟨0, []⟩
      [⟨"t1"⟩, ⟨""⟩, ⟨"t2"⟩] none 1 rfl).elim
    (fun issued h => ⟨issued, h.1, h.2.2.1⟩)

/-- Every name the loop of `GetDatastores` adds is free of `/`. -/
theorem getDatastoresLoop_no_slash (d : sqlDatastoreDialect) (render : Value → String)
    (rows : List (List Value)) (result l : List String)
    (h : sqlDatastoreDialect.getDatastoresLoop d render rows result = Outcome.returned l) :
    ∀ n ∈ l, n ∈ result ∨ '/' ∉ n.data := by
  induction rows generalizing result with
  | nil =>
    simp only [sqlDatastoreDialect.getDatastoresLoop, Outcome.returned.injEq] at h
    subst h
    intro n hn
    exact Or.inl hn
  | cons row rows ih =>
    simp only [sqlDatastoreDialect.getDatastoresLoop] at h
    cases hidx : indexSlice row d.schemaResultsetIndex with
    | none => simp [hidx] at h
    | some v =>
      simp only [hidx] at h
      intro n hn
      rcases ih _ h n hn with hmem | hns
      · rcases List.mem_append.mp hmem with h1 | h2
        · exact Or.inl h1
        · right
          rw [List.mem_singleton.mp h2]
          exact normalizeName_no_slash _
      · exact Or.inr hns

/-- C20: for every string `x`, `normalizeName x` is a suffix of `x` and holds no
`/`; hence no name in a list `GetDatastores` returns and no name
`GetCurrentDatastore` returns holds a `/`. -/
theorem normalizeName_suffix_without_slash {σ : Type} (x : String) (d : sqlDatastoreDialect)
    (render : Value → String) (m : Manager σ) (w : World σ) :
    List.IsSuffix (normalizeName x).data x.data ∧
    '/' ∉ (normalizeName x).data ∧
    (∀ l e, (d.GetDatastores render m w).1 = Outcome.returned (some l, e) →
      ∀ n ∈ l, '/' ∉ n.data) ∧
    (∀ n e, (d.GetCurrentDatastore render m w).1 = Outcome.returned (n, e) →
      '/' ∉ n.data) := by
  refine ⟨?_, normalizeName_no_slash x, ?_, ?_⟩
  · rw [normalizeName_eq_split]
    rcases pathSplit_snd_spec x with ⟨_, h2⟩ | ⟨pre, h1, _⟩
    · rw [h2]
    · exact ⟨pre ++ ['/'], by rw [h1]; simp⟩
  · intro l e h
    simp only [sqlDatastoreDialect.GetDatastores] at h
    split at h
    · simp at h
    · split at h
      · simp at h
      · rename_i result hloop
        simp only [Outcome.returned.injEq, Prod.mk.injEq, Option.some.injEq] at h
        intro n hn
        rcases getDatastoresLoop_no_slash d render _ [] result hloop n (h.1 ▸ hn) with h0 | h1
        · simp at h0
        · exact h1
  · intro n e h
    simp only [sqlDatastoreDialect.GetCurrentDatastore] at h
    split at h
    · simp only [Outcome.returned.injEq, Prod.mk.injEq] at h
      rw [← h.1]
      decide
    · split at h
      · simp at h
      · simp only [Outcome.returned.injEq, Prod.mk.injEq] at h
        rw [← h.1]
        exact normalizeName_no_slash _

/-- Witness for C20 at the SQLite configuration: the rows `/var/db/main.sqlite`
and `a\b/c` give the names `main.sqlite` and `c`, and the found row gives
`main.sqlite`. -/
theorem normalizeName_suffix_without_slash_witness :
    (∀ n ∈ ["main.sqlite", "c"], '/' ∉ n.data) ∧ '/' ∉ "main.sqlite".data :=
  ⟨(normalizeName_suffix_without_slash "x" newSQLLiteDialect.DatastoreDialect (fun _ => "?")
      (scriptedManager (fun _ => none) [] []
        [[Value.int 0, Value.str "main", Value.str "/var/db/main.sqlite"],
          [Value.int 1, Value.str "aux", Value.str "a\\b/c"]]
        [Value.int 0, Value.str "main", Value.str "/var/db/main.sqlite"] [] true none)
      ⟨0, []⟩).2.2.1 ["main.sqlite", "c"] none (by decide),
   (normalizeName_suffix_without_slash "x" newSQLLiteDialect.DatastoreDialect (fun _ => "?")
      (scriptedManager (fun _ => none) [] []
        [[Value.int 0, Value.str "main", Value.str "/var/db/main.sqlite"],
          [Value.int 1, Value.str "aux", Value.str "a\\b/c"]]
        [Value.int 0, Value.str "main", Value.str "/var/db/main.sqlite"] [] true none)
      ⟨0, []⟩).2.2.2 "main.sqlite" none (by decide)⟩

end Dsc
